import Mathlib

/-!
Shallow embedding of the ezlang compiler front end (src/parser.rs and
src/ir_code.rs) for checking the natural-language specification.

The repository's `utils.rs` (definitions of `Token`, `Node`, `Scope`,
`Instruction`, `Val`, `Error`) is not present under `src/`; only its
declarations and callers are.  Every definition below whose doc comment
starts with `Modelled from the spec:` reconstructs such a missing piece
from the specification's words; everything else is translated directly
from the Rust sources named in its doc comment.

Modelling conventions:
* Rust `usize`/`u32`/`i32` values that the claims never overflow are
  modelled as `Nat`/`Int`.
* Error messages (human-readable `format!` strings) are not modelled;
  an `Error` is its kind plus its span.
* A Rust panic (out-of-bounds index, `unwrap` on `None`, `unreachable!`,
  `todo!`) is modelled by an explicit `panics` outcome.
* The parser's recursive-descent methods are mutually recursive and may
  diverge on malformed input, so they are embedded as a single
  fuel-indexed interpreter `run` over a defunctionalized request type
  `PReq`; each `PReq` case is the body of one Rust method.
-/

namespace Ez

/-- Source span carried by every token and node (spec §3; `utils::Position`).
`stop` models the Rust field `end` (a Lean keyword). -/
structure Position where
  start : Nat
  stop : Nat
  lineStart : Nat
  lineEnd : Nat
deriving DecidableEq, Repr

/-- Token kinds used by `parser.rs` and `ir_code.rs`.
Modelled from the spec: the exact `TokenType` enum lives in the missing
`utils.rs`; the constructors are those matched on in `parser.rs`. -/
inductive TokenType where
  | Number (n : Nat)
  | Identifier (s : String)
  | Keyword (s : String)
  | Eol
  | Eof
  | Add | Sub | Mul | Div | Mod | Pow
  | Inc | Dec
  | BAnd | BOr | BXor | BNot | Shl | Shr
  | LAnd | LOr | LXor | LNot
  | Eq | Neq | Lt | Gt | Le | Ge
  | Assign | AddAssign | SubAssign | MulAssign | DivAssign | ModAssign
  | LParen | RParen | LCurly | RCurly
  | Colon | Comma | Arrow | TernaryIf
deriving DecidableEq, Repr

/-- A token: kind plus span (spec §3). -/
structure Token where
  tokenType : TokenType
  position : Position
deriving DecidableEq, Repr

/-- Declared types (`utils::Type`), as constructed by `Parser::make_type`. -/
inductive LangType where
  | None
  | Number
  | Boolean
  | Ref (inner : LangType)
  | Function (params : List LangType) (ret : LangType)
deriving Repr

/-- Error kinds (spec §7 taxonomy). -/
inductive ErrorType where
  | SyntaxError
  | TypeError
  | DivisionByZero
  | UndefinedFunction
  | UndefinedVariable
  | InvalidReturn
deriving DecidableEq, Repr

/-- `utils::Error`: kind plus span.  The human-readable message string is
not modelled. -/
structure Error where
  errorType : ErrorType
  position : Position
deriving DecidableEq, Repr

/-- The AST (`utils::Node`), with the constructor shapes used by
`parser.rs` (which constructs every variant). -/
inductive Node where
  | Number (t : Token)
  | BinaryOp (op : Token) (l r : Node)
  | UnaryOp (op : Token) (e : Node)
  | VarAssign (name : Token) (e : Node) (ann : Option LangType)
  | VarAccess (t : Token)
  | VarReassign (name : Token) (e : Node)
  | Statements (ns : List Node) (pos : Position)
  | Print (ns : List Node) (pos : Position)
  | Ascii (ns : List Node) (pos : Position)
  | Input (pos : Position)
  | If (c : Node) (t : Node) (e : Option Node) (pos : Position)
  | Ternary (c : Node) (t : Node) (e : Node) (pos : Position)
  | Ref (e : Node) (pos : Position)
  | Deref (e : Node) (pos : Position)
  | Tuple (pos : Position)
  | None (pos : Position)
  | Call (f : Node) (args : List Node) (pos : Position)
  | FuncDef (name : Token) (params : List (Token × LangType)) (body : Node)
      (ret : LangType) (pos : Position)
  | Return (e : Option Node) (pos : Position)
deriving Repr

/-- Modelled from the spec: `Node::position()` (missing `utils.rs`); spec §3
says every node carries a span and a parent's span is the union of its
children's.  Variants without an explicit span field take it from their
token or children. -/
def Node.position : Node → Position
  | .Number t => t.position
  | .BinaryOp _ l r =>
      { start := l.position.start, stop := r.position.stop,
        lineStart := l.position.lineStart, lineEnd := r.position.lineEnd }
  | .UnaryOp op e =>
      { start := op.position.start, stop := e.position.stop,
        lineStart := op.position.lineStart, lineEnd := e.position.lineEnd }
  | .VarAssign name e _ =>
      { start := name.position.start, stop := e.position.stop,
        lineStart := name.position.lineStart, lineEnd := e.position.lineEnd }
  | .VarAccess t => t.position
  | .VarReassign name e =>
      { start := name.position.start, stop := e.position.stop,
        lineStart := name.position.lineStart, lineEnd := e.position.lineEnd }
  | .Statements _ pos => pos
  | .Print _ pos => pos
  | .Ascii _ pos => pos
  | .Input pos => pos
  | .If _ _ _ pos => pos
  | .Ternary _ _ _ pos => pos
  | .Ref _ pos => pos
  | .Deref _ pos => pos
  | .Tuple pos => pos
  | .None pos => pos
  | .Call _ _ pos => pos
  | .FuncDef _ _ _ _ pos => pos
  | .Return _ pos => pos

/-- Modelled from the spec: `ASSIGNMENT_OPERATORS` (missing `utils.rs`);
§4.2 calls these the "assignment-family" operators: `=` and the compound
forms desugared by `let_statement`. -/
def ASSIGNMENT_OPERATORS : List TokenType :=
  [.Assign, .AddAssign, .SubAssign, .MulAssign, .DivAssign, .ModAssign]

/-- Modelled from the spec: `Token::un_augmented` (missing `utils.rs`);
§4.2: `x op= expr` rewrites to `x = x op expr`, so `op=` maps to `op`,
keeping the token's span. -/
def Token.un_augmented (t : Token) : Token :=
  { t with
    tokenType :=
      match t.tokenType with
      | .AddAssign => .Add
      | .SubAssign => .Sub
      | .MulAssign => .Mul
      | .DivAssign => .Div
      | .ModAssign => .Mod
      | tt => tt }

/-- The scope tree (`utils::Scope`).  Modelled from the spec (§3, §4.1):
parent back-reference (a clone/snapshot in this ownership model), owned
child scopes, variable and function declaration maps, queued unresolved
function calls, pre-registered argument names, and one first-error slot
each for name errors and function errors. -/
inductive Scope where
  | mk (parent : Option Scope) (scopes : List Scope)
      (vars : List (String × Node)) (functions : List (String × Node))
      (unresolved_functions : List Node) (args : Option (List Token))
      (error : Option Error) (func_error : Option Error)

def Scope.parent : Scope → Option Scope
  | .mk p _ _ _ _ _ _ _ => p

def Scope.scopes : Scope → List Scope
  | .mk _ s _ _ _ _ _ _ => s

/-- The Rust field is named `variables` (a reserved word in Lean). -/
def Scope.vars : Scope → List (String × Node)
  | .mk _ _ v _ _ _ _ _ => v

def Scope.functions : Scope → List (String × Node)
  | .mk _ _ _ f _ _ _ _ => f

def Scope.unresolved_functions : Scope → List Node
  | .mk _ _ _ _ u _ _ _ => u

def Scope.args : Scope → Option (List Token)
  | .mk _ _ _ _ _ a _ _ => a

def Scope.error : Scope → Option Error
  | .mk _ _ _ _ _ _ e _ => e

def Scope.func_error : Scope → Option Error
  | .mk _ _ _ _ _ _ _ fe => fe

/-- `Scope::new(parent)`: fresh scope with a snapshot of the parent chain
(spec §3, §5: parent links are clones, rebuilt later by `refresh`). -/
def Scope.new (parent : Option Scope) : Scope :=
  .mk parent [] [] [] [] none none none

def Scope.withParent (sc : Scope) (p : Option Scope) : Scope :=
  match sc with
  | .mk _ s v f u a e fe => .mk p s v f u a e fe

def Scope.withScopes (sc : Scope) (s : List Scope) : Scope :=
  match sc with
  | .mk p _ v f u a e fe => .mk p s v f u a e fe

def Scope.withUnresolved (sc : Scope) (u : List Node) : Scope :=
  match sc with
  | .mk p s v f _ a e fe => .mk p s v f u a e fe

def Scope.pushScope (sc : Scope) (child : Scope) : Scope :=
  sc.withScopes (sc.scopes ++ [child])

/-- Name of the identifier token a variable node is about. -/
def nodeVarName : Node → Option (String × Position)
  | .VarAssign ⟨.Identifier s, pos⟩ _ _ => some (s, pos)
  | .VarAccess ⟨.Identifier s, pos⟩ => some (s, pos)
  | .VarReassign ⟨.Identifier s, pos⟩ _ => some (s, pos)
  | _ => none

/-- Callee name of a queued `Node::Call` (always `Call(VarAccess _, ..)`
as built by `Parser::call`). -/
def callName : Node → Option (String × Position)
  | .Call (.VarAccess ⟨.Identifier s, pos⟩) _ _ => some (s, pos)
  | _ => none

/-- Whether `s` resolves as a variable in this scope chain: own variable
declarations, pre-registered argument names, then the parent snapshot
(spec §4.1 `access_variable`). -/
def Scope.knowsVar : Scope → String → Bool
  | .mk parent _ vars _ _ args _ _, s =>
    vars.any (fun p => p.1 == s)
      || (args.getD []).any (fun t =>
            match t.tokenType with
            | .Identifier s2 => s2 == s
            | _ => false)
      || (match parent with
          | some p => p.knowsVar s
          | none => false)

/-- Whether `s` resolves as a function in this scope chain
(spec §4.1 `register_function` / `refresh`). -/
def Scope.knowsFun : Scope → String → Bool
  | .mk parent _ _ funcs _ _ _ _, s =>
    funcs.any (fun p => p.1 == s)
      || (match parent with
          | some p => p.knowsFun s
          | none => false)

/-- Modelled from the spec: `Scope::register_variable` (missing
`utils.rs`); §4.1: binds the declared name to its declaring node in the
current scope, overwriting any prior binding (last-write-wins). -/
def Scope.register_variable (sc : Scope) (node : Node) : Scope :=
  match nodeVarName node with
  | some (s, _) =>
      match sc with
      | .mk p sch v f u a e fe => .mk p sch ((s, node) :: v) f u a e fe
  | none => sc

/-- Modelled from the spec: `Scope::access_variable` (missing `utils.rs`);
§4.1: resolves the name immediately along the chain; on failure records
the scope's first name error (first one recorded wins). -/
def Scope.access_variable (sc : Scope) (node : Node) : Scope :=
  match nodeVarName node with
  | some (s, pos) =>
      if sc.knowsVar s then sc
      else
        match sc with
        | .mk p sch v f u a e fe =>
            match e with
            | some _ => .mk p sch v f u a e fe
            | none => .mk p sch v f u a (some ⟨.UndefinedVariable, pos⟩) fe
  | none => sc

/-- Modelled from the spec: `Scope::register_function` (missing
`utils.rs`); §4.1: binds the function name in the current scope. -/
def Scope.register_function (sc : Scope) (node : Node) : Scope :=
  match node with
  | .FuncDef ⟨.Identifier s, _⟩ _ _ _ _ =>
      match sc with
      | .mk p sch v f u a e fe => .mk p sch v ((s, node) :: f) u a e fe
  | _ => sc

/-- Modelled from the spec: `Scope::access_function` (missing `utils.rs`);
§4.1: defers resolution by queuing the call node. -/
def Scope.access_function (sc : Scope) (node : Node) : Scope :=
  sc.withUnresolved (sc.unresolved_functions ++ [node])

/-- Modelled from the spec: `Scope::refresh` (missing `utils.rs`); §4.1:
with the parent chain now complete, queued calls whose callee resolves
are dropped from the queue; the rest stay unresolved. -/
def Scope.refresh (sc : Scope) : Scope :=
  sc.withUnresolved
    (sc.unresolved_functions.filter (fun n =>
      match callName n with
      | some (s, _) => !(sc.knowsFun s)
      | none => false))

def Scope.withArgs (sc : Scope) (a : Option (List Token)) : Scope :=
  match sc with
  | .mk p s v f u _ e fe => .mk p s v f u a e fe

/-- The recurring Rust idiom `pos.end = q.end; pos.line_end = q.line_end`. -/
def Position.withEnd (p q : Position) : Position :=
  { p with stop := q.stop, lineEnd := q.lineEnd }

/-- Parser cursor state (`Parser` struct fields, parser.rs:9). -/
structure PState where
  tokens : List Token
  token_index : Nat
  current_token : Token
deriving Repr

/-- `Parser::advance` (parser.rs:16). -/
def PState.advance (st : PState) : PState :=
  let i := st.token_index + 1
  match st.tokens.get? i with
  | some t => { st with token_index := i, current_token := t }
  | none => { st with token_index := i }

/-- `Parser::peek_type` (parser.rs:23). -/
def PState.peek_type (st : PState) : Option TokenType :=
  (st.tokens.get? (st.token_index + 1)).map (·.tokenType)

/-- Values produced by the parser methods (Node for most, a type for
`make_type`, and the lists accumulated by the internal loops). -/
inductive PVal where
  | node (n : Node)
  | ty (t : LangType)
  | nodes (ns : List Node)
  | tys (ts : List LangType)
  | params (ps : List (Token × LangType))

/-- Outcome of one parser method: `Ok` with the value and the mutated
cursor/scope, an `Err`, a Rust panic, or fuel exhaustion (a modelling
artifact: the Rust code would loop instead). -/
inductive PRes where
  | ok (v : PVal) (st : PState) (sc : Scope)
  | err (e : Error)
  | panics
  | nofuel

/-- Propagation of `?` for a Node-valued sub-parse. -/
def PRes.bindN (r : PRes) (f : Node → PState → Scope → PRes) : PRes :=
  match r with
  | .ok (.node n) st sc => f n st sc
  | .ok _ _ _ => .panics
  | .err e => .err e
  | .panics => .panics
  | .nofuel => .nofuel

def PRes.bindT (r : PRes) (f : LangType → PState → Scope → PRes) : PRes :=
  match r with
  | .ok (.ty t) st sc => f t st sc
  | .ok _ _ _ => .panics
  | .err e => .err e
  | .panics => .panics
  | .nofuel => .nofuel

def PRes.bindNs (r : PRes) (f : List Node → PState → Scope → PRes) : PRes :=
  match r with
  | .ok (.nodes ns) st sc => f ns st sc
  | .ok _ _ _ => .panics
  | .err e => .err e
  | .panics => .panics
  | .nofuel => .nofuel

def PRes.bindTs (r : PRes) (f : List LangType → PState → Scope → PRes) : PRes :=
  match r with
  | .ok (.tys ts) st sc => f ts st sc
  | .ok _ _ _ => .panics
  | .err e => .err e
  | .panics => .panics
  | .nofuel => .nofuel

def PRes.bindPs (r : PRes) (f : List (Token × LangType) → PState → Scope → PRes) : PRes :=
  match r with
  | .ok (.params ps) st sc => f ps st sc
  | .ok _ _ _ => .panics
  | .err e => .err e
  | .panics => .panics
  | .nofuel => .nofuel

/-- The sub-parser function pointers `Parser::binary_op` is parameterized
with (its `func1`/`func2` arguments), defunctionalized. -/
inductive SubP where
  | comparison | bitwise | arithmetic | term | factor | call

/-- Requests of the parser interpreter: one constructor per `Parser`
method, plus one per internal `while` loop (carrying its accumulator). -/
inductive PReq where
  | statements (endTok : TokenType) (global : Bool)
  | statementsLoop (endTok : TokenType) (acc : List Node)
  | statement
  | expression
  | letStatement (init : Bool)
  | makeType
  | makeTypeTupleLoop (acc : List LangType)
  | comparison
  | bitwise
  | arithmetic
  | term
  | factor
  | power
  | call
  | atom
  | binOp (f1 : SubP) (ops : List TokenType) (f2 : SubP)
  | binOpLoop (ops : List TokenType) (f2 : SubP) (left : Node)
  | callArgsLoop (acc : List Node)
  | exprListLoop (acc : List Node)
  | functionDefinition
  | funcParamsLoop (acc : List (Token × LangType))

def subReq : SubP → PReq
  | .comparison => .comparison
  | .bitwise => .bitwise
  | .arithmetic => .arithmetic
  | .term => .term
  | .factor => .factor
  | .call => .call

/-- The Rust pattern `Node::Number(Token { token_type: TokenType::Number(0), .. })`
(parser.rs:609 and parser.rs:234). -/
def isLitZero : Node → Bool
  | .Number ⟨.Number 0, _⟩ => true
  | _ => false

/-- The parser (parser.rs:15-626) as a fuel-indexed interpreter.  Each
`PReq` case is the body of the like-named `Parser` method; loops are the
like-named extra requests.  All recursion is on the fuel. -/
def run : Nat → PReq → PState → Scope → PRes
  | 0, _, _, _ => .nofuel
  | Nat.succ fuel, req, st, sc =>
    match req with
    | .statements endTok global =>
        -- Parser::statements (parser.rs:30)
        let pos := st.current_token.position
        let st := if global then st else st.advance
        (run fuel (.statementsLoop endTok []) st sc).bindNs fun stmts st sc =>
          let end_pos := st.current_token.position
          let st := st.advance
          .ok (.node (.Statements stmts (pos.withEnd end_pos))) st sc
    | .statementsLoop endTok acc =>
        -- the `while` loop of Parser::statements (parser.rs:37)
        if st.current_token.tokenType == endTok then .ok (.nodes acc) st sc
        else
          match st.current_token.tokenType with
          | .Eol => run fuel (.statementsLoop endTok acc) st.advance sc
          | _ =>
              (run fuel .statement st sc).bindN fun n st sc =>
                run fuel (.statementsLoop endTok (acc ++ [n])) st sc
    | .statement =>
        -- Parser::statement (parser.rs:50)
        match st.current_token.tokenType with
        | .Keyword kw =>
            if kw == "ezreturn" then
              let token := st.current_token
              let st := st.advance
              if st.current_token.tokenType == .Eol then
                .ok (.node (.Return none token.position)) st sc
              else
                (run fuel .expression st sc).bindN fun e st sc =>
                  .ok (.node (.Return (some e) token.position)) st sc
            else if kw == "let" then
              (run fuel (.letStatement true) st.advance sc).bindN fun n st sc =>
                .ok (.node n) st (sc.register_variable n)
            else if kw == "if" then
              let pos := st.current_token.position
              (run fuel .expression st.advance sc).bindN fun condition st sc =>
              (run fuel .statement st sc).bindN fun then_branch st sc =>
              if st.current_token.tokenType == .Keyword "else" then
                (run fuel .statement st.advance sc).bindN fun node st sc =>
                  .ok (.node (.If condition then_branch (some node)
                    (pos.withEnd node.position))) st sc
              else
                let st := st.advance
                .ok (.node (.If condition then_branch none
                  (pos.withEnd st.current_token.position))) st sc
            else if kw == "ezascii" then
              let pos := st.current_token.position
              (run fuel .expression st.advance sc).bindN fun n0 st sc =>
              (run fuel (.exprListLoop [n0]) st sc).bindNs fun ns st sc =>
                .ok (.node (.Ascii ns (pos.withEnd st.current_token.position))) st sc
            else if kw == "ezout" then
              let pos := st.current_token.position
              (run fuel .expression st.advance sc).bindN fun n0 st sc =>
              (run fuel (.exprListLoop [n0]) st sc).bindNs fun ns st sc =>
                .ok (.node (.Print ns (pos.withEnd st.current_token.position))) st sc
            else run fuel .expression st sc
        | .Identifier _ =>
            if (match st.peek_type with
                | some tt => ASSIGNMENT_OPERATORS.contains tt
                | none => false) then
              (run fuel (.letStatement false) st sc).bindN fun n st sc =>
                .ok (.node n) st (sc.access_variable n)
            else run fuel .expression st sc
        | _ => run fuel .expression st sc
    | .expression =>
        -- Parser::expression (parser.rs:135)
        run fuel (.binOp .comparison [.LAnd, .LOr, .LXor] .comparison) st sc
    | .letStatement init =>
        -- Parser::let_statement (parser.rs:209)
        match st.current_token.tokenType with
        | .Identifier _ =>
            let token := st.current_token
            let st := st.advance
            let cont := fun (t : Option LangType) (st : PState) (sc : Scope) =>
              match st.current_token.tokenType with
              | .Assign =>
                  if init then
                    (run fuel .expression st.advance sc).bindN fun e st sc =>
                      .ok (.node (.VarAssign token e t)) st sc
                  else
                    (run fuel .expression st.advance sc).bindN fun e st sc =>
                      .ok (.node (.VarReassign token e)) st sc
              | x =>
                  if ASSIGNMENT_OPERATORS.contains x && !init then
                    let op := st.current_token
                    (run fuel .expression st.advance sc).bindN fun right st sc =>
                      if [TokenType.DivAssign, TokenType.ModAssign].contains op.tokenType
                          && isLitZero right then
                        .err ⟨.DivisionByZero, st.current_token.position⟩
                      else
                        .ok (.node (.VarReassign token
                          (.BinaryOp op.un_augmented (.VarAccess token) right))) st sc
                  else .err ⟨.SyntaxError, st.current_token.position⟩
            if st.current_token.tokenType == .Colon then
              (run fuel .makeType st.advance sc).bindT fun t st sc => cont (some t) st sc
            else cont none st sc
        | _ => .err ⟨.SyntaxError, st.current_token.position⟩
    | .makeType =>
        -- Parser::make_type (parser.rs:144)
        match st.current_token.tokenType with
        | .Keyword kw =>
            if kw == "eznumber" then .ok (.ty .Number) st.advance sc
            else if kw == "ezbool" then .ok (.ty .Boolean) st.advance sc
            else if kw == "ezblank" then .ok (.ty .None) st.advance sc
            else .err ⟨.SyntaxError, st.current_token.position⟩
        | .BAnd =>
            (run fuel .makeType st.advance sc).bindT fun t st sc =>
              .ok (.ty (.Ref t)) st sc
        | .LAnd =>
            (run fuel .makeType st.advance sc).bindT fun t st sc =>
              .ok (.ty (.Ref (.Ref t))) st sc
        | .LParen =>
            let st := st.advance
            let cont := fun (types : List LangType) (st : PState) (sc : Scope) =>
              let st := st.advance
              if st.current_token.tokenType == .Arrow then
                (run fuel .makeType st.advance sc).bindT fun ret st sc =>
                  .ok (.ty (.Function types ret)) st sc
              else .ok (.ty (.Function types .None)) st sc
            if st.current_token.tokenType == .RParen then cont [] st sc
            else
              (run fuel .makeType st sc).bindT fun t0 st sc =>
              (run fuel (.makeTypeTupleLoop [t0]) st sc).bindTs fun types st sc =>
                if st.current_token.tokenType == .RParen then cont types st sc
                else .err ⟨.SyntaxError, st.current_token.position⟩
        | _ => .err ⟨.SyntaxError, st.current_token.position⟩
    | .makeTypeTupleLoop acc =>
        -- the `while` loop of the tuple case of make_type (parser.rs:180)
        if st.current_token.tokenType == .Comma then
          (run fuel .makeType st.advance sc).bindT fun t st sc =>
            run fuel (.makeTypeTupleLoop (acc ++ [t])) st sc
        else .ok (.tys acc) st sc
    | .comparison =>
        -- Parser::comparison (parser.rs:271)
        match st.current_token.tokenType with
        | .LNot =>
            let token := st.current_token
            (run fuel .comparison st.advance sc).bindN fun e st sc =>
              .ok (.node (.UnaryOp token e)) st sc
        | _ =>
            run fuel (.binOp .bitwise [.Eq, .Neq, .Lt, .Gt, .Le, .Ge] .bitwise) st sc
    | .bitwise =>
        -- Parser::bitwise (parser.rs:293)
        run fuel (.binOp .arithmetic [.BAnd, .BOr, .BXor, .Shl, .Shr] .arithmetic) st sc
    | .arithmetic =>
        -- Parser::arithmetic (parser.rs:308)
        run fuel (.binOp .term [.Add, .Sub] .term) st sc
    | .term =>
        -- Parser::term (parser.rs:317)
        run fuel (.binOp .factor [.Mul, .Div, .Mod] .factor) st sc
    | .factor =>
        -- Parser::factor (parser.rs:326)
        let token := st.current_token
        match token.tokenType with
        | .Sub | .BNot | .Inc | .Dec =>
            (run fuel .factor st.advance sc).bindN fun e st sc =>
              .ok (.node (.UnaryOp token e)) st sc
        | _ => run fuel .power st sc
    | .power =>
        -- Parser::power (parser.rs:337)
        run fuel (.binOp .call [.Pow] .call) st sc
    | .binOp f1 ops f2 =>
        -- Parser::binary_op (parser.rs:595), entry
        (run fuel (subReq f1) st sc).bindN fun left st sc =>
          run fuel (.binOpLoop ops f2 left) st sc
    | .binOpLoop ops f2 left =>
        -- the `while` loop of Parser::binary_op (parser.rs:604)
        if ops.contains st.current_token.tokenType then
          let op := st.current_token
          (run fuel (subReq f2) st.advance sc).bindN fun right st sc =>
            if [TokenType.Div, TokenType.Mod].contains op.tokenType
                && isLitZero right then
              .err ⟨.DivisionByZero, st.current_token.position⟩
            else run fuel (.binOpLoop ops f2 (.BinaryOp op left right)) st sc
        else .ok (.node left) st sc
    | .call =>
        -- Parser::call (parser.rs:341)
        match st.current_token.tokenType with
        | .Identifier _ =>
            let atomN := Node.VarAccess st.current_token
            let pos := st.current_token.position
            let st := st.advance
            if st.current_token.tokenType == .LParen then
              (run fuel (.callArgsLoop []) st.advance sc).bindNs fun args st sc =>
                if st.current_token.tokenType == .RParen then
                  let st := st.advance
                  let node := Node.Call atomN args (pos.withEnd st.current_token.position)
                  .ok (.node node) st (sc.access_function node)
                else .err ⟨.SyntaxError, st.current_token.position⟩
            else
              -- single-token pushback, then the unconditional reload of
              -- `self.tokens[self.token_index]` (parser.rs:370-373)
              let st := { st with token_index := st.token_index - 1 }
              match st.tokens.get? st.token_index with
              | some t => run fuel .atom { st with current_token := t } sc
              | none => .panics
        | _ =>
            match st.tokens.get? st.token_index with
            | some t => run fuel .atom { st with current_token := t } sc
            | none => .panics
    | .callArgsLoop acc =>
        -- the argument `while` loop of Parser::call (parser.rs:349)
        if st.current_token.tokenType == .RParen then .ok (.nodes acc) st sc
        else
          (run fuel .expression st sc).bindN fun n st sc =>
            if st.current_token.tokenType == .Comma then
              run fuel (.callArgsLoop (acc ++ [n])) st.advance sc
            else .ok (.nodes (acc ++ [n])) st sc
    | .atom =>
        -- Parser::atom (parser.rs:377)
        let token := st.current_token
        match token.tokenType with
        | .Keyword kw =>
            if kw == "ez" then
              (run fuel .functionDefinition st.advance sc).bindN fun node st sc =>
                .ok (.node node) st (sc.register_function node)
            else if kw == "ezin" then .ok (.node (.Input token.position)) st.advance sc
            else if kw == "true" then .ok (.node (.Number token)) st.advance sc
            else if kw == "false" then .ok (.node (.Number token)) st.advance sc
            else if kw == "ezblank" then .ok (.node (.None token.position)) st.advance sc
            else .err ⟨.SyntaxError, st.current_token.position⟩
        | .TernaryIf =>
            (run fuel .expression st.advance sc).bindN fun condition st sc =>
            (run fuel .expression st sc).bindN fun then_branch st sc =>
            if st.current_token.tokenType == .Colon then
              (run fuel .expression st.advance sc).bindN fun else_branch st sc =>
                .ok (.node (.Ternary condition then_branch else_branch
                  (token.position.withEnd else_branch.position))) st sc
            else .err ⟨.SyntaxError, st.current_token.position⟩
        | .Identifier _ =>
            let node := Node.VarAccess token
            .ok (.node node) st.advance (sc.access_variable node)
        | .LParen =>
            let st := st.advance
            if st.current_token.tokenType == .RParen then
              .ok (.node (.Tuple token.position)) st.advance sc
            else
              (run fuel .expression st sc).bindN fun node st sc =>
                if st.current_token.tokenType == .RParen then
                  .ok (.node node) st.advance sc
                else .err ⟨.SyntaxError, st.current_token.position⟩
        | .LCurly =>
            match run fuel (.statements .RCurly false) st (Scope.new (some sc)) with
            | .ok (.node node) st inner => .ok (.node node) st (sc.pushScope inner)
            | .ok _ _ _ => .panics
            | r => r
        | .Number _ => .ok (.node (.Number token)) st.advance sc
        | .Mul =>
            let st := st.advance
            let pos := token.position.withEnd st.current_token.position
            (run fuel .atom st sc).bindN fun e st sc =>
              .ok (.node (.Deref e pos)) st sc
        | .Pow =>
            let st := st.advance
            let pos0 := token.position.withEnd st.current_token.position
            let pos := { pos0 with stop := pos0.stop - 1 }
            (run fuel .atom st sc).bindN fun e st sc =>
              let node := Node.Deref e pos
              .ok (.node (.Deref node { pos with start := pos.start + 1 })) st sc
        | .BAnd =>
            let st := st.advance
            let pos := token.position.withEnd st.current_token.position
            (run fuel .atom st sc).bindN fun e st sc =>
              .ok (.node (.Ref e pos)) st sc
        | .LAnd =>
            let st := st.advance
            let pos0 := token.position.withEnd st.current_token.position
            let pos := { pos0 with stop := pos0.stop - 1 }
            (run fuel .atom st sc).bindN fun e st sc =>
              let node := Node.Ref e pos
              .ok (.node (.Ref node { pos with start := pos.start + 1 })) st sc
        | _ => .err ⟨.SyntaxError, st.current_token.position⟩
    | .functionDefinition =>
        -- Parser::function_definition (parser.rs:506)
        match st.current_token.tokenType with
        | .Identifier _ =>
            let name := st.current_token
            let st := st.advance
            if st.current_token.tokenType == .LParen then
              let st := st.advance
              let cont := fun (params : List (Token × LangType)) (st : PState) (sc : Scope) =>
                let st := st.advance
                let retCont := fun (ret : LangType) (st : PState) (sc : Scope) =>
                  let new_scope :=
                    (Scope.new (some sc)).withArgs (some (params.map (·.1)))
                  match run fuel .expression st new_scope with
                  | .ok (.node e) st inner =>
                      .ok (.node (.FuncDef name params e ret
                        (name.position.withEnd e.position))) st (sc.pushScope inner)
                  | .ok _ _ _ => .panics
                  | r => r
                if st.current_token.tokenType == .Arrow then
                  (run fuel .makeType st.advance sc).bindT fun ret st sc =>
                    retCont ret st sc
                else retCont .None st sc
              match st.current_token.tokenType with
              | .Identifier _ =>
                  let p := st.current_token
                  let st := st.advance
                  if st.current_token.tokenType == .Colon then
                    (run fuel .makeType st.advance sc).bindT fun t st sc =>
                    (run fuel (.funcParamsLoop [(p, t)]) st sc).bindPs fun params st sc =>
                      if st.current_token.tokenType == .RParen then cont params st sc
                      else .err ⟨.SyntaxError, st.current_token.position⟩
                  else .err ⟨.SyntaxError, st.current_token.position⟩
              | .RParen => cont [] st sc
              | _ => .err ⟨.SyntaxError, st.current_token.position⟩
            else .err ⟨.SyntaxError, st.current_token.position⟩
        | _ => .err ⟨.SyntaxError, st.current_token.position⟩
    | .funcParamsLoop acc =>
        -- the parameter `while` loop of function_definition (parser.rs:539)
        if st.current_token.tokenType == .Comma then
          let st := st.advance
          match st.current_token.tokenType with
          | .Identifier _ =>
              let p := st.current_token
              let st := st.advance
              if st.current_token.tokenType == .Colon then
                (run fuel .makeType st.advance sc).bindT fun t st sc =>
                  run fuel (.funcParamsLoop (acc ++ [(p, t)])) st sc
              else .err ⟨.SyntaxError, st.current_token.position⟩
          | _ => .err ⟨.SyntaxError, st.current_token.position⟩
        else .ok (.params acc) st sc
    | .exprListLoop acc =>
        -- the comma loops of the ezascii / ezout statements (parser.rs:101, 113)
        match st.current_token.tokenType with
        | .Comma =>
            (run fuel .expression st.advance sc).bindN fun n st sc =>
              run fuel (.exprListLoop (acc ++ [n])) st sc
        | _ => .ok (.nodes acc) st sc

mutual

/-- `check_error` inside `check_undefined` (parser.rs:653): a scope's own
name error, else its own function error, else the first error found in a
depth-first, left-to-right walk of its children. -/
def check_error (sc : Scope) : Option Error :=
  match sc with
  | .mk _ scopes _ _ _ _ e fe =>
    match e with
    | some err => some err
    | none =>
      match fe with
      | some err => some err
      | none => check_error_list scopes

def check_error_list : List Scope → Option Error
  | [] => none
  | c :: rest =>
    match check_error c with
    | some err => some err
    | none => check_error_list rest

end

mutual

/-- The inner `refresh` helper of `check_undefined` (parser.rs:671): set
the child's parent to the given (cloned) scope, refresh it, then recurse
into its children with a clone of the refreshed scope as parent. -/
def refreshWrap : Scope → Scope → Scope
  | .mk _ scopes v f u a e fe, parent =>
    let refreshed := (Scope.mk (some parent) scopes v f u a e fe).refresh
    refreshed.withScopes (refreshWrapList scopes refreshed)

/-- The `for child in scope.scopes` loop of the helper: every child gets
the same refreshed clone as parent. -/
def refreshWrapList : List Scope → Scope → List Scope
  | [], _ => []
  | c :: rest, parent => refreshWrap c parent :: refreshWrapList rest parent

end

mutual

/-- `check_functions` inside `check_undefined` (parser.rs:685): the first
scope (own queue before children, depth-first) with a non-empty
unresolved queue yields its most recently queued call (`pop`). -/
def check_functions (sc : Scope) : Option Node :=
  match sc with
  | .mk _ scopes _ _ unresolved _ _ _ =>
    match unresolved.getLast? with
    | some n => some n
    | none => check_functions_list scopes

def check_functions_list : List Scope → Option Node
  | [] => none
  | c :: rest =>
    match check_functions c with
    | some n => some n
    | none => check_functions_list rest

end

/-- Outcome of a Rust function that can also panic. -/
inductive PanicOr (α : Type) where
  | val (a : α)
  | panics
deriving Repr

/-- `check_undefined` (parser.rs:652): surface recorded scope errors,
refresh the children of the global scope (the global scope itself is
never refreshed), re-check, then report the call popped by
`check_functions`, if any, as an undefined function. -/
def check_undefined (global : Scope) : PanicOr (Option Error) :=
  match check_error global with
  | some err => .val (some err)
  | none =>
    let g1 := global.withScopes (refreshWrapList global.scopes global)
    match check_error g1 with
    | some err => .val (some err)
    | none =>
      match check_functions g1 with
      | some node =>
          match node with
          | .Call (.VarAccess token) _ _ =>
              .val (some ⟨.UndefinedFunction, token.position⟩)
          | _ => .panics
      | none => .val none

mutual

/-- `check_return` inside `keyword_checks` (parser.rs:722): position of
the first `Return` node found outside nested statement blocks and
function bodies. -/
def check_return : Node → Option Position
  | .None _ => none
  | .Number _ => none
  | .Tuple _ => none
  | .BinaryOp _ n1 n2 =>
      match check_return n1 with
      | some p => some p
      | none => check_return n2
  | .UnaryOp _ n1 => check_return n1
  | .VarAssign _ n1 _ => check_return n1
  | .VarAccess _ => none
  | .VarReassign _ n1 => check_return n1
  | .Statements _ _ => none
  | .Ternary n1 n2 n3 _ =>
      match check_return n1 with
      | some p => some p
      | none =>
        match check_return n2 with
        | some p => some p
        | none => check_return n3
  | .If n1 n2 n3 _ =>
      match check_return n1 with
      | some p => some p
      | none =>
        match check_return n2 with
        | some p => some p
        | none =>
          match n3 with
          | some n3 => check_return n3
          | none => none
  | .Call n1 n2 _ =>
      match check_return n1 with
      | some p => some p
      | none => check_return_list n2
  | .FuncDef _ _ _ _ _ => none
  | .Return _ pos => some pos
  | .Ref n1 _ => check_return n1
  | .Deref n1 _ => check_return n1
  | .Print n1 _ => check_return_list n1
  | .Ascii n1 _ => check_return_list n1
  | .Input _ => none

def check_return_list : List Node → Option Position
  | [] => none
  | n :: rest =>
    match check_return n with
    | some p => some p
    | none => check_return_list rest

end

/-- `keyword_checks` (parser.rs:721): reject a `return` in the global
scope; the AST root is always a `Statements` node (else `unreachable!`). -/
def keyword_checks (ast : Node) : PanicOr (Option Error) :=
  match ast with
  | .Statements nodes _ =>
      match check_return_list nodes with
      | some pos => .val (some ⟨.InvalidReturn, pos⟩)
      | none => .val none
  | _ => .panics

/-- The unconditional first read `tokens[0]` performed by `parse`
(parser.rs:633) before any other work. -/
def firstToken (tokens : List Token) : Option Token := tokens.get? 0

/-- Result of the public `parse` entry point. -/
inductive ParseOut where
  | ok (n : Node)
  | err (e : Error)
  | panics
  | nofuel
deriving Repr

/-- `parse` (parser.rs:632): read `tokens[0]` (a panic on an empty
vector), run `statements` to the end-of-file token against a fresh
global scope, then `check_undefined` and `keyword_checks`. -/
def parse (tokens : List Token) (fuel : Nat) : ParseOut :=
  match firstToken tokens with
  | none => .panics
  | some token =>
    match run fuel (.statements .Eof true) ⟨tokens, 0, token⟩ (Scope.new none) with
    | .ok (.node ast) _ global =>
        match check_undefined global with
        | .panics => .panics
        | .val (some e) => .err e
        | .val none =>
            match keyword_checks ast with
            | .panics => .panics
            | .val (some e) => .err e
            | .val none => .ok ast
    | .ok _ _ _ => .panics
    | .err e => .err e
    | .panics => .panics
    | .nofuel => .nofuel

/-! ## IR lowering (src/ir_code.rs)

`ir_code.rs` matches a `Node` variant set that differs from the one
`parser.rs` constructs (e.g. its `VarAssign` has no type annotation and
its `Print`/`Ascii` take a single expression); the shared definition
lives in the missing `utils.rs`.  `INode` reproduces exactly the shapes
`CodeGenerator::match_node` patterns on. -/

/-- IR-level value types (spec §3: inferred value type {None, Number,
Boolean}), as used via `Val::r#type()` in ir_code.rs. -/
inductive ValType where
  | None
  | Number
  | Boolean
deriving DecidableEq, Repr

/-- Modelled from the spec: `utils::Val` (spec §3): an immediate typed
literal or an indexed reference to a prior instruction's result carrying
its value type, as constructed in ir_code.rs. -/
inductive Val where
  | Num (n : Int)
  | Bool (b : Bool)
  | Index (i : Nat) (t : ValType)
  | None
deriving DecidableEq, Repr

/-- `Val::r#type()`. -/
def Val.type : Val → ValType
  | .Num _ => .Number
  | .Bool _ => .Boolean
  | .Index _ t => t
  | .None => .None

/-- Modelled from the spec: `utils::Instruction` (spec §3: opcode,
operand Vals; three-address form), with the constructors ir_code.rs
builds: the binary/unary operator instructions produced by
`Instruction::from_token_binary` / `from_token_unary`, plus `Copy`,
`Print`, `Ascii`, `Input` and `If`. -/
inductive Instruction where
  | Add (l r : Val) | Sub (l r : Val) | Mul (l r : Val)
  | Div (l r : Val) | Mod (l r : Val) | Pow (l r : Val)
  | BAnd (l r : Val) | BOr (l r : Val) | BXor (l r : Val)
  | Shl (l r : Val) | Shr (l r : Val)
  | LAnd (l r : Val) | LOr (l r : Val) | LXor (l r : Val)
  | Eq (l r : Val) | Neq (l r : Val) | Lt (l r : Val)
  | Gt (l r : Val) | Le (l r : Val) | Ge (l r : Val)
  | Neg (v : Val) | BNot (v : Val) | Inc (v : Val) | Dec (v : Val)
  | LNot (v : Val)
  | Copy (v : Val)
  | Print (v : Val)
  | Ascii (v : Val)
  | Input
  | If (c : Val) (t : Val) (e : Option Val)
deriving DecidableEq, Repr

/-- Modelled from the spec: `Instruction::from_token_binary` (missing
`utils.rs`): the binary-operator instruction for an operator token;
`none` models the `unreachable` panic on a non-operator token. -/
def from_token_binary : TokenType → Option (Val → Val → Instruction)
  | .Add => some .Add
  | .Sub => some .Sub
  | .Mul => some .Mul
  | .Div => some .Div
  | .Mod => some .Mod
  | .Pow => some .Pow
  | .BAnd => some .BAnd
  | .BOr => some .BOr
  | .BXor => some .BXor
  | .Shl => some .Shl
  | .Shr => some .Shr
  | .LAnd => some .LAnd
  | .LOr => some .LOr
  | .LXor => some .LXor
  | .Eq => some .Eq
  | .Neq => some .Neq
  | .Lt => some .Lt
  | .Gt => some .Gt
  | .Le => some .Le
  | .Ge => some .Ge
  | _ => none

/-- Modelled from the spec: `Instruction::from_token_unary` (missing
`utils.rs`): the unary-operator instruction for a prefix operator token. -/
def from_token_unary : TokenType → Option (Val → Instruction)
  | .Sub => some .Neg
  | .BNot => some .BNot
  | .Inc => some .Inc
  | .Dec => some .Dec
  | .LNot => some .LNot
  | _ => none

/-- The AST variant shapes matched by `CodeGenerator::match_node`
(ir_code.rs:13-215), constructor by constructor. -/
inductive INode where
  | Number (t : Token)
  | BinaryOp (op : Token) (l r : INode)
  | UnaryOp (op : Token) (e : INode)
  | VarAssign (name : Token) (e : INode)
  | VarAccess (t : Token)
  | VarReassign (name : Token) (e : INode)
  | Statements (ns : List INode)
  | Print (e : INode)
  | Ascii (e : INode)
  | Input
  | If (c : INode) (t : INode) (e : Option INode)
  | None
  | Call (f : INode) (args : List INode)
  | FuncDef (name : Token) (params : List (Token × LangType)) (body : INode)
  | Return (pos : Position) (e : Option INode)
deriving Repr

/-- Modelled from the spec: `Node::position()` on the ir_code.rs node
shape (used at ir_code.rs:175 and 189); spec §3: every node carries a
span, a parent's span the union of its children's. -/
def INode.position : INode → Position
  | .Number t => t.position
  | .BinaryOp op _ _ => op.position
  | .UnaryOp op _ => op.position
  | .VarAssign name _ => name.position
  | .VarAccess t => t.position
  | .VarReassign name _ => name.position
  | .Statements _ => ⟨0, 0, 0, 0⟩
  | .Print e => e.position
  | .Ascii e => e.position
  | .Input => ⟨0, 0, 0, 0⟩
  | .If c _ _ => c.position
  | .None => ⟨0, 0, 0, 0⟩
  | .Call f _ => f.position
  | .FuncDef name _ _ => name.position
  | .Return pos _ => pos

/-- `CodeGenerator` state (ir_code.rs:6): the growing instruction list
(`Instructions`, a sequence of instruction / optional-destination-slot
pairs), the next free slot index, and the variable table.  The Rust
`HashMap` is modelled as an association list where an insert shadows. -/
structure CG where
  instructions : List (Instruction × Option Nat)
  array_index : Nat
  vars : List (String × Val)
deriving Repr

/-- `HashMap::get` on the modelled variable table. -/
def CG.getVar (s : CG) (x : String) : Option Val :=
  (s.vars.find? (fun p => p.1 == x)).map (·.2)

/-- `HashMap::insert` / `*get_mut(..) = v` on the modelled table. -/
def CG.setVar (s : CG) (x : String) (v : Val) : CG :=
  { s with vars := (x, v) :: s.vars }

/-- `Instructions::push(instruction, assign)` (called throughout
ir_code.rs with the optional destination slot). -/
def CG.push (s : CG) (i : Instruction) (assign : Option Nat) : CG :=
  { s with instructions := s.instructions ++ [(i, assign)] }

/-- Outcome of `CodeGenerator::match_node`: the `(Val, bool)` pair and
the mutated generator, an `Err`, or a Rust panic (`unreachable!`,
`todo!`, `unwrap` failure). -/
inductive CRes where
  | ok (v : Val) (ret : Bool) (s : CG)
  | err (e : Error)
  | panics
deriving Repr

mutual

/-- `CodeGenerator::match_node` (ir_code.rs:13). -/
def match_node : INode → CG → CRes
  | .Number num, s =>
      -- ir_code.rs:15
      match num.tokenType with
      | .Number n => .ok (.Num (Int.ofNat n)) false s
      | .Keyword b =>
          if b == "true" then .ok (.Bool true) false s
          else if b == "false" then .ok (.Bool false) false s
          else .panics
      | _ => .panics
  | .BinaryOp op left right, s =>
      -- ir_code.rs:25
      match match_node left s with
      | .ok lv _ s =>
          match match_node right s with
          | .ok rv _ s =>
              let left_type := lv.type
              if left_type != rv.type then
                .err ⟨.TypeError, op.position⟩
              else
                match from_token_binary op.tokenType with
                | some f =>
                    let s := s.push (f lv rv) (some s.array_index)
                    let s := { s with array_index := s.array_index + 1 }
                    .ok (.Index (s.array_index - 1) left_type) false s
                | none => .panics
          | r => r
      | r => r
  | .UnaryOp op expr, s =>
      -- ir_code.rs:49
      match match_node expr s with
      | .ok v _ s =>
          let expr_type := v.type
          match from_token_unary op.tokenType with
          | some f =>
              let s := s.push (f v) (some s.array_index)
              let s := { s with array_index := s.array_index + 1 }
              .ok (.Index (s.array_index - 1) expr_type) false s
          | none => .panics
      | r => r
  | .VarAssign var expr, s =>
      -- ir_code.rs:60
      match var.tokenType with
      | .Identifier x =>
          match match_node expr s with
          | .ok (.Index index type_) _ s =>
              let s := s.setVar x (.Index s.array_index type_)
              let s := s.push (.Copy (.Index index type_)) (some s.array_index)
              let s := { s with array_index := s.array_index + 1 }
              .ok (.Index (s.array_index - 1) type_) false s
          | .ok val _ s =>
              let val_type := val.type
              let s := s.setVar x val
              .ok (.Index s.array_index val_type) false s
          | r => r
      | _ => .panics
  | .VarAccess var, s =>
      -- ir_code.rs:84 (`unwrap` on a missing name panics)
      match var.tokenType with
      | .Identifier x =>
          match s.getVar x with
          | some v => .ok v false s
          | none => .panics
      | _ => .panics
  | .VarReassign var1 expr, s =>
      -- ir_code.rs:92
      match var1.tokenType with
      | .Identifier x =>
          match match_node expr s with
          | .ok (.Index index type_) _ s =>
              match s.getVar x with
              | some var =>
                  if var.type != type_ then
                    .err ⟨.TypeError, var1.position⟩
                  else
                    let s := s.setVar x (.Index index var.type)
                    let s := s.push (.Copy (.Index index type_)) (some s.array_index)
                    let s := { s with array_index := s.array_index + 1 }
                    .ok (.Index s.array_index type_) false s
              | none => .panics
          | .ok val _ s =>
              match s.getVar x with
              | some var =>
                  let val_type := val.type
                  if var.type != val_type then
                    .err ⟨.TypeError, var1.position⟩
                  else
                    let s := s.setVar x val
                    .ok (.Index s.array_index val_type) false s
              | none => .panics
          | r => r
      | _ => .panics
  | .Statements statements, s =>
      -- ir_code.rs:141
      match_node_list statements s
  | .Print expr, s =>
      -- ir_code.rs:151
      match match_node expr s with
      | .ok v _ s =>
          let s := s.push (.Print v) none
          .ok (.Index s.array_index .None) false s
      | r => r
  | .Ascii expr, s =>
      -- ir_code.rs:157
      match match_node expr s with
      | .ok v _ s =>
          let s := s.push (.Ascii v) none
          .ok (.Index s.array_index .None) false s
      | r => r
  | .Input, s =>
      -- ir_code.rs:163
      let s := s.push .Input (some s.array_index)
      let s := { s with array_index := s.array_index + 1 }
      .ok (.Index (s.array_index - 1) .Number) false s
  | .If cond1 then1 none, s =>
      -- ir_code.rs:170 (no else branch)
      match match_node cond1 s with
      | .ok cond _ s =>
          if cond.type != .Boolean then
            .err ⟨.TypeError, cond1.position⟩
          else
            match match_node then1 s with
            | .ok then_ _ s =>
                let then_type := then_.type
                let s := s.push (.If cond then_ none) (some s.array_index)
                let s := { s with array_index := s.array_index + 1 }
                .ok (.Index (s.array_index - 1) then_type) false s
            | r => r
      | r => r
  | .If cond1 then1 (some en), s =>
      -- ir_code.rs:170 (with an else branch); the two clauses model the
      -- single Rust arm, whose body matches on `else_1`
      match match_node cond1 s with
      | .ok cond _ s =>
          if cond.type != .Boolean then
            .err ⟨.TypeError, cond1.position⟩
          else
            match match_node then1 s with
            | .ok then_ _ s =>
                let then_type := then_.type
                match match_node en s with
                | .ok else_ _ s =>
                    if then_type != else_.type then
                      .err ⟨.TypeError, en.position⟩
                    else
                      let s := s.push (.If cond then_ (some else_))
                                 (some s.array_index)
                      let s := { s with array_index := s.array_index + 1 }
                      .ok (.Index (s.array_index - 1) then_type) false s
                | r => r
            | r => r
      | r => r
  | .None, s => .ok .None false s
  | .Call _ _, _ => .panics      -- ir_code.rs:208 `todo!()`
  | .FuncDef _ _ _, _ => .panics -- ir_code.rs:209 `todo!()`
  | .Return _ (some expr), s =>
      -- ir_code.rs:211 (the two clauses model the single Rust arm, whose
      -- body matches on the optional expression)
      match match_node expr s with
      | .ok v _ s => .ok v true s
      | r => r
  | .Return _ none, s => .ok .None true s

/-- The statement loop of the `Node::Statements` case (ir_code.rs:142):
a returning statement short-circuits the block with its value. -/
def match_node_list : List INode → CG → CRes
  | [], s => .ok .None false s
  | n :: rest, s =>
      match match_node n s with
      | .ok v ret s => if ret then .ok v false s else match_node_list rest s
      | r => r

end

/-- `generate_code` (ir_code.rs:220): run the generator from the empty
state and return the instruction list. -/
def generate_code (ast : INode) : PanicOr (Except Error (List (Instruction × Option Nat))) :=
  match match_node ast ⟨[], 0, []⟩ with
  | .ok _ _ s => .val (.ok s.instructions)
  | .err e => .val (.error e)
  | .panics => .panics

/-! ## The backend contract (spec §6) and the arithmetic fragment -/

/-- The operand `Val`s of an instruction. -/
def instrVals : Instruction → List Val
  | .Add l r | .Sub l r | .Mul l r | .Div l r | .Mod l r | .Pow l r
  | .BAnd l r | .BOr l r | .BXor l r | .Shl l r | .Shr l r
  | .LAnd l r | .LOr l r | .LXor l r
  | .Eq l r | .Neq l r | .Lt l r | .Gt l r | .Le l r | .Ge l r => [l, r]
  | .Neg v | .BNot v | .Inc v | .Dec v | .LNot v | .Copy v
  | .Print v | .Ascii v => [v]
  | .Input => []
  | .If c t e => [c, t] ++ e.toList

/-- The slot an operand references, if it is not an immediate. -/
def valSlot : Val → Option Nat
  | .Index k _ => some k
  | _ => none

/-- The slots referenced by an instruction's operands. -/
def instrSlots (i : Instruction) : List Nat :=
  (instrVals i).filterMap valSlot

/-- Every operand of `i` references a slot among the `k` already-defined
ones (slots are dense from 0, so defined = `{0, …, k-1}`) or is an
immediate. -/
def slotsBelow (k : Nat) (i : Instruction) : Bool :=
  (instrSlots i).all (fun j => j < k)

/-- Walk of an instruction list with `a` slots already defined: every
operand references an already-defined slot or an immediate, and every
destination slot is the next index (dense, strictly increasing). -/
def emOk : Nat → List (Instruction × Option Nat) → Bool
  | _, [] => true
  | a, (ins, d) :: rest =>
    slotsBelow a ins &&
      (match d with
       | some k => k == a && emOk (a + 1) rest
       | none => emOk a rest)

def isPrintOrAscii : Instruction → Bool
  | .Print _ => true
  | .Ascii _ => true
  | _ => false

/-- Print/Ascii instructions carry no destination slot. -/
def printOk (l : List (Instruction × Option Nat)) : Bool :=
  l.all (fun p => if isPrintOrAscii p.1 then p.2 == none else true)

/-- The backend contract of spec §6: destination slot indices dense and
strictly increasing from 0, every operand an immediate or a reference to
a slot already defined by an earlier instruction, and Print/Ascii
instructions with no destination slot. -/
def backendContract (l : List (Instruction × Option Nat)) : Bool :=
  emOk 0 l && printOk l

/-- Binary arithmetic operator tokens. -/
def isArithTok : TokenType → Bool
  | .Add | .Sub | .Mul | .Div | .Mod | .Pow => true
  | _ => false

/-- Unary prefix operator tokens of the `factor` rule. -/
def isUnArithTok : TokenType → Bool
  | .Sub | .BNot | .Inc | .Dec => true
  | _ => false

/-- A (well-typed, Number-operands-only) arithmetic expression: a number
literal, or an arithmetic binary/unary operator over such expressions. -/
def isPure : INode → Bool
  | .Number ⟨.Number _, _⟩ => true
  | .BinaryOp op l r => isArithTok op.tokenType && isPure l && isPure r
  | .UnaryOp op e => isUnArithTok op.tokenType && isPure e
  | _ => false

/-- A statement in which the value of a Print/Ascii never flows into
another instruction: an arithmetic expression, or a Print/Ascii of one. -/
def isPureStmt : INode → Bool
  | .Print e => isPure e
  | .Ascii e => isPure e
  | e => isPure e

/-- The operator tokens of an expression in post-order. -/
def postOps : INode → List TokenType
  | .BinaryOp op l r => postOps l ++ postOps r ++ [op.tokenType]
  | .UnaryOp op e => postOps e ++ [op.tokenType]
  | _ => []

/-- Number of operator nodes of an arithmetic expression. -/
def opCount (e : INode) : Nat := (postOps e).length

/-- The operator token an operator instruction came from. -/
def instrTok : Instruction → Option TokenType
  | .Add _ _ => some .Add
  | .Sub _ _ => some .Sub
  | .Mul _ _ => some .Mul
  | .Div _ _ => some .Div
  | .Mod _ _ => some .Mod
  | .Pow _ _ => some .Pow
  | .BAnd _ _ => some .BAnd
  | .BOr _ _ => some .BOr
  | .BXor _ _ => some .BXor
  | .Shl _ _ => some .Shl
  | .Shr _ _ => some .Shr
  | .LAnd _ _ => some .LAnd
  | .LOr _ _ => some .LOr
  | .LXor _ _ => some .LXor
  | .Eq _ _ => some .Eq
  | .Neq _ _ => some .Neq
  | .Lt _ _ => some .Lt
  | .Gt _ _ => some .Gt
  | .Le _ _ => some .Le
  | .Ge _ _ => some .Ge
  | .Neg _ => some .Sub
  | .BNot _ => some .BNot
  | .Inc _ => some .Inc
  | .Dec _ => some .Dec
  | .LNot _ => some .LNot
  | _ => none

/-- The arithmetic fragment as an inductive predicate (for induction). -/
inductive Pure : INode → Prop
  | num (n : Nat) (pos : Position) : Pure (.Number ⟨.Number n, pos⟩)
  | bin (op : Token) (l r : INode) : isArithTok op.tokenType = true →
      Pure l → Pure r → Pure (.BinaryOp op l r)
  | un (op : Token) (e : INode) : isUnArithTok op.tokenType = true →
      Pure e → Pure (.UnaryOp op e)

/-- The statement fragment for the backend-contract theorem: statements
whose Print/Ascii values never flow into another instruction. -/
inductive PureStmt : INode → Prop
  | expr (e : INode) : Pure e → PureStmt e
  | print (e : INode) : Pure e → PureStmt (.Print e)
  | ascii (e : INode) : Pure e → PureStmt (.Ascii e)

/-! ## Position-erased node skeletons

Used to state which tree a parse yields without spelling out every
computed span. -/

inductive Shape where
  | lit (tt : TokenType)
  | binop (tt : TokenType) (l r : Shape)
  | unary (tt : TokenType) (e : Shape)
  | assign (tt : TokenType) (e : Shape) (ann : Option LangType)
  | access (tt : TokenType)
  | reassign (tt : TokenType) (e : Shape)
  | stmts (ns : List Shape)
  | print (ns : List Shape)
  | ascii (ns : List Shape)
  | input
  | ifS (c t : Shape) (e : Option Shape)
  | ternary (c t e : Shape)
  | ref (e : Shape)
  | deref (e : Shape)
  | tuple
  | blank
  | callS (f : Shape) (args : List Shape)
  | funcdef (tt : TokenType) (body : Shape) (ret : LangType)
  | ret (e : Option Shape)
deriving Repr

mutual

/-- Erase positions (and function parameter lists) from a parsed node. -/
def Node.shape : Node → Shape
  | .Number t => .lit t.tokenType
  | .BinaryOp op l r => .binop op.tokenType l.shape r.shape
  | .UnaryOp op e => .unary op.tokenType e.shape
  | .VarAssign name e ann => .assign name.tokenType e.shape ann
  | .VarAccess t => .access t.tokenType
  | .VarReassign name e => .reassign name.tokenType e.shape
  | .Statements ns _ => .stmts (Node.shapeList ns)
  | .Print ns _ => .print (Node.shapeList ns)
  | .Ascii ns _ => .ascii (Node.shapeList ns)
  | .Input _ => .input
  | .If c t e _ =>
      .ifS c.shape t.shape (match e with | some e => some e.shape | none => none)
  | .Ternary c t e _ => .ternary c.shape t.shape e.shape
  | .Ref e _ => .ref e.shape
  | .Deref e _ => .deref e.shape
  | .Tuple _ => .tuple
  | .None _ => .blank
  | .Call f args _ => .callS f.shape (Node.shapeList args)
  | .FuncDef name _ body ret _ => .funcdef name.tokenType body.shape ret
  | .Return e _ => .ret (match e with | some e => some e.shape | none => none)

def Node.shapeList : List Node → List Shape
  | [] => []
  | n :: rest => n.shape :: Node.shapeList rest

end

/-- The skeleton of a successful parse. -/
def parseShape (tokens : List Token) (fuel : Nat) : Option Shape :=
  match parse tokens fuel with
  | .ok n => some n.shape
  | _ => none

def ParseOut.isOk : ParseOut → Bool
  | .ok _ => true
  | _ => false

/-- Whether a parse produced a lone power node with a unary left operand
(the tree claimed for `- a ** b`). -/
def topIsPowOverUnary : ParseOut → Bool
  | .ok (.Statements [.BinaryOp op (.UnaryOp _ _) _] _) => op.tokenType == .Pow
  | _ => false

/-! ## Concrete inputs used by the claim theorems

`tokAt tt i` is a token with kind `tt` spanning `[i, i+1)` on line 0. -/

def tokAt (tt : TokenType) (i : Nat) : Token := ⟨tt, ⟨i, i + 1, 0, 0⟩⟩

/-- Tokens of `- 1 ** 2`. -/
def c1toks : List Token :=
  [tokAt .Sub 0, tokAt (.Number 1) 1, tokAt .Pow 2, tokAt (.Number 2) 3, tokAt .Eof 4]

/-- Tokens of `let x: eznumber = 3 ⏎ x += 2`. -/
def c2toks : List Token :=
  [tokAt (.Keyword "let") 0, tokAt (.Identifier "x") 1, tokAt .Colon 2,
   tokAt (.Keyword "eznumber") 3, tokAt .Assign 4, tokAt (.Number 3) 5,
   tokAt .Eol 6, tokAt (.Identifier "x") 7, tokAt .AddAssign 8,
   tokAt (.Number 2) 9, tokAt .Eof 10]

/-- The AST `parse c2toks` yields, in the node shape `match_node`
consumes: `x = 3` then the desugared `x = x + 2`. -/
def c2prog : INode :=
  .Statements
    [.VarAssign (tokAt (.Identifier "x") 1) (.Number (tokAt (.Number 3) 5)),
     .VarReassign (tokAt (.Identifier "x") 7)
       (.BinaryOp (tokAt .Add 8) (.VarAccess (tokAt (.Identifier "x") 7))
         (.Number (tokAt (.Number 2) 9)))]

/-- The first statement of `c2prog` alone. -/
def c2prog1 : INode :=
  .Statements [.VarAssign (tokAt (.Identifier "x") 1) (.Number (tokAt (.Number 3) 5))]

/-- Tokens of `1 / 0`. -/
def c3toks : List Token :=
  [tokAt (.Number 1) 0, tokAt .Div 1, tokAt (.Number 0) 2, tokAt .Eof 3]

/-- `if true (ezout 1)` in the node shape `match_node` consumes: an `If`
whose then-branch value is a `Print` result. -/
def c4prog : INode :=
  .If (.Number (tokAt (.Keyword "true") 0)) (.Print (.Number (tokAt (.Number 1) 1))) none

/-- What lowering `c4prog` emits. -/
def c4instrs : List (Instruction × Option Nat) :=
  [(.Print (.Num 1), none), (.If (.Bool true) (.Index 0 .None) none, some 0)]

/-- Tokens of `1 / 2`. -/
def c5aToks : List Token :=
  [tokAt (.Number 1) 0, tokAt .Div 1, tokAt (.Number 2) 2, tokAt .Eof 3]

/-- Tokens of `let x = 1 ⏎ 2 / x`. -/
def c5bToks : List Token :=
  [tokAt (.Keyword "let") 0, tokAt (.Identifier "x") 1, tokAt .Assign 2,
   tokAt (.Number 1) 3, tokAt .Eol 4, tokAt (.Number 2) 5, tokAt .Div 6,
   tokAt (.Identifier "x") 7, tokAt .Eof 8]

/-- Tokens of `1 / (0 - 0)`. -/
def c5cToks : List Token :=
  [tokAt (.Number 1) 0, tokAt .Div 1, tokAt .LParen 2, tokAt (.Number 0) 3,
   tokAt .Sub 4, tokAt (.Number 0) 5, tokAt .RParen 6, tokAt .Eof 7]

/-- Tokens of `x /= 0` (with `x` the current token). -/
def c5dToks : List Token :=
  [tokAt (.Identifier "x") 0, tokAt .DivAssign 1, tokAt (.Number 0) 2, tokAt .Eof 3]

/-- Tokens of `let x = 1 ⏎ x /= 2` (compound assignment with a
non-zero literal divisor). -/
def c5eToks : List Token :=
  [tokAt (.Keyword "let") 0, tokAt (.Identifier "x") 1, tokAt .Assign 2,
   tokAt (.Number 1) 3, tokAt .Eol 4, tokAt (.Identifier "x") 5,
   tokAt .DivAssign 6, tokAt (.Number 2) 7, tokAt .Eof 8]

/-- Lowering input for the `if 1 … else …` example: non-Boolean
condition and (would-be) mismatching branch types. -/
def c6prog : INode :=
  .If (.Number (tokAt (.Number 1) 0)) (.Number (tokAt (.Number 2) 1))
      (some (.Number (tokAt (.Keyword "true") 2)))

/-- `let x = 1; let x = true; x = true` in the node shape `match_node`
consumes: a re-`let` of `x` at a different type, then a reassignment
matching the re-bound type but not the first-bound type. -/
def c7prog : INode :=
  .Statements
    [.VarAssign (tokAt (.Identifier "x") 0) (.Number (tokAt (.Number 1) 1)),
     .VarAssign (tokAt (.Identifier "x") 2) (.Number (tokAt (.Keyword "true") 3)),
     .VarReassign (tokAt (.Identifier "x") 4) (.Number (tokAt (.Keyword "true") 5))]

/-- The first statement of `c7prog` alone. -/
def c7prog1 : INode :=
  .Statements [.VarAssign (tokAt (.Identifier "x") 0) (.Number (tokAt (.Number 1) 1))]

/-- Tokens of `foo() ez foo() 1`: a global-scope call to a function
defined later in the same (global) block. -/
def c8fwdToks : List Token :=
  [tokAt (.Identifier "foo") 0, tokAt .LParen 1, tokAt .RParen 2,
   tokAt (.Keyword "ez") 3, tokAt (.Identifier "foo") 4, tokAt .LParen 5,
   tokAt .RParen 6, tokAt (.Number 1) 7, tokAt .Eof 8]

/-- Tokens of `{ foo() ez foo() 1 }`: the same forward call inside a
non-global block. -/
def c8nestedToks : List Token :=
  [tokAt .LCurly 0, tokAt (.Identifier "foo") 1, tokAt .LParen 2,
   tokAt .RParen 3, tokAt (.Keyword "ez") 4, tokAt (.Identifier "foo") 5,
   tokAt .LParen 6, tokAt .RParen 7, tokAt (.Number 1) 8, tokAt .RCurly 9,
   tokAt .Eof 10]

/-- Tokens of `foo()` with `foo` never registered. -/
def c8undefToks : List Token :=
  [tokAt (.Identifier "foo") 0, tokAt .LParen 1, tokAt .RParen 2, tokAt .Eof 3]

/-- Tokens of `foo() bar()` with neither registered. -/
def c8twoToks : List Token :=
  [tokAt (.Identifier "foo") 0, tokAt .LParen 1, tokAt .RParen 2,
   tokAt (.Identifier "bar") 3, tokAt .LParen 4, tokAt .RParen 5, tokAt .Eof 6]

/-! ## Supporting lemmas for the arithmetic-fragment theorems -/

/-- The consecutive slot indices `a, a+1, …, a+n-1`. -/
def slotSeq : Nat → Nat → List Nat
  | _, 0 => []
  | a, n + 1 => a :: slotSeq (a + 1) n

theorem slotSeq_append : ∀ (m : Nat) {a n : Nat},
    slotSeq a m ++ slotSeq (a + m) n = slotSeq a (m + n) := by
  intro m
  induction m with
  | zero => intro a n; simp [slotSeq]
  | succ m ih =>
      intro a n
      have h1 : a + (m + 1) = (a + 1) + m := by omega
      have h2 : m + 1 + n = (m + n) + 1 := by omega
      simp only [slotSeq, h1, h2, List.cons_append, ih]

theorem slotSeq_one (a : Nat) : slotSeq a 1 = [a] := rfl

theorem mem_slotSeq : ∀ (n : Nat) {a b : Nat}, b ∈ slotSeq a n → a ≤ b := by
  intro n
  induction n with
  | zero => intro a b h; simp [slotSeq] at h
  | succ n ih =>
      intro a b h
      simp only [slotSeq, List.mem_cons] at h
      rcases h with h | h
      · omega
      · have := ih h; omega

theorem slotSeq_pairwise : ∀ (n a : Nat), (slotSeq a n).Pairwise (· < ·) := by
  intro n
  induction n with
  | zero => intro a; simp [slotSeq]
  | succ n ih =>
      intro a
      simp only [slotSeq, List.pairwise_cons]
      exact ⟨fun b hb => Nat.lt_of_lt_of_le (Nat.lt_succ_self a) (mem_slotSeq n hb), ih (a + 1)⟩

theorem filterMap_eq_of_map_eq_map_some {α β : Type} {f : α → Option β} :
    ∀ {l : List α} {l2 : List β}, l.map f = l2.map some → l.filterMap f = l2 := by
  intro l
  induction l with
  | nil => intro l2 h; cases l2 <;> simp_all
  | cons a rest ih =>
      intro l2 h
      cases l2 with
      | nil => simp at h
      | cons b rest2 =>
          simp only [List.map_cons, List.cons.injEq] at h
          simp [List.filterMap_cons, h.1, ih h.2]

theorem emOk_append : ∀ {xs ys : List (Instruction × Option Nat)} {a : Nat},
    emOk a xs = true →
    emOk (a + (xs.filterMap (fun p => p.2)).length) ys = true →
    emOk a (xs ++ ys) = true := by
  intro xs
  induction xs with
  | nil => intro ys a _ hy; simpa using hy
  | cons p rest ih =>
      intro ys a hx hy
      obtain ⟨ins, d⟩ := p
      cases d with
      | none =>
          simp only [emOk, Bool.and_eq_true] at hx ⊢
          refine ⟨hx.1, ih hx.2 ?_⟩
          simpa [List.filterMap_cons] using hy
      | some k =>
          simp only [emOk, Bool.and_eq_true, beq_iff_eq] at hx ⊢
          obtain ⟨h1, h2, h3⟩ := hx
          refine ⟨h1, h2, ih h3 ?_⟩
          simp only [List.filterMap_cons] at hy
          have heq : a + 1 + (rest.filterMap (fun p => p.2)).length
              = a + (k :: rest.filterMap (fun p => p.2)).length := by
            simp; omega
          rw [heq]; exact hy

theorem printOk_append {xs ys : List (Instruction × Option Nat)}
    (hx : printOk xs = true) (hy : printOk ys = true) :
    printOk (xs ++ ys) = true := by
  simp only [printOk, List.all_append, Bool.and_eq_true]
  exact ⟨hx, hy⟩

theorem printOk_of_noPrint {xs : List (Instruction × Option Nat)}
    (h : xs.all (fun p => !isPrintOrAscii p.1) = true) : printOk xs = true := by
  simp only [printOk, List.all_eq_true] at *
  intro p hp
  have := h p hp
  simp only [Bool.not_eq_true'] at this
  simp [this]

theorem from_token_binary_spec {tt : TokenType} (h : isArithTok tt = true) :
    ∃ f, from_token_binary tt = some f ∧
      ∀ x y, instrVals (f x y) = [x, y] ∧ instrTok (f x y) = some tt ∧
        isPrintOrAscii (f x y) = false := by
  cases tt <;> simp [isArithTok] at h <;>
    exact ⟨_, rfl, fun x y => ⟨rfl, rfl, rfl⟩⟩

theorem from_token_unary_spec {tt : TokenType} (h : isUnArithTok tt = true) :
    ∃ f, from_token_unary tt = some f ∧
      ∀ x, instrVals (f x) = [x] ∧ instrTok (f x) = some tt ∧
        isPrintOrAscii (f x) = false := by
  cases tt <;> simp [isUnArithTok] at h <;>
    exact ⟨_, rfl, fun x => ⟨rfl, rfl, rfl⟩⟩

theorem opCount_bin (op : Token) (l r : INode) :
    opCount (.BinaryOp op l r) = opCount l + opCount r + 1 := by
  simp [opCount, postOps]
  omega

theorem opCount_un (op : Token) (e : INode) :
    opCount (.UnaryOp op e) = opCount e + 1 := by
  simp [opCount, postOps]

/-! One-step unfolding equations for `match_node` (its mutual nested
recursion generates no equational theorems; these hold by `rfl`). -/

theorem match_node_num (t : Token) (s : CG) :
    match_node (.Number t) s =
      (match t.tokenType with
       | .Number n => .ok (.Num (Int.ofNat n)) false s
       | .Keyword b =>
           if b == "true" then .ok (.Bool true) false s
           else if b == "false" then .ok (.Bool false) false s
           else .panics
       | _ => .panics) := rfl

theorem match_node_bin (op : Token) (l r : INode) (s : CG) :
    match_node (.BinaryOp op l r) s =
      (match match_node l s with
       | .ok lv _ s1 =>
         (match match_node r s1 with
          | .ok rv _ s2 =>
              if lv.type != rv.type then .err ⟨.TypeError, op.position⟩
              else
                match from_token_binary op.tokenType with
                | some f =>
                    .ok (.Index s2.array_index lv.type) false
                      ⟨s2.instructions ++ [(f lv rv, some s2.array_index)],
                       s2.array_index + 1, s2.vars⟩
                | none => .panics
          | r => r)
       | r => r) := rfl

theorem match_node_un (op : Token) (e : INode) (s : CG) :
    match_node (.UnaryOp op e) s =
      (match match_node e s with
       | .ok v _ s1 =>
           (match from_token_unary op.tokenType with
            | some f =>
                .ok (.Index s1.array_index v.type) false
                  ⟨s1.instructions ++ [(f v, some s1.array_index)],
                   s1.array_index + 1, s1.vars⟩
            | none => .panics)
       | r => r) := rfl

theorem match_node_reassign (var1 : Token) (expr : INode) (s : CG) :
    match_node (.VarReassign var1 expr) s =
      (match var1.tokenType with
       | .Identifier x =>
         (match match_node expr s with
          | .ok (.Index index type_) _ s1 =>
              (match s1.getVar x with
               | some var =>
                   if var.type != type_ then .err ⟨.TypeError, var1.position⟩
                   else
                     .ok (.Index (s1.array_index + 1) type_) false
                       ⟨s1.instructions ++ [(.Copy (.Index index type_), some s1.array_index)],
                        s1.array_index + 1, (x, .Index index var.type) :: s1.vars⟩
               | none => .panics)
          | .ok val _ s1 =>
              (match s1.getVar x with
               | some var =>
                   if var.type != val.type then .err ⟨.TypeError, var1.position⟩
                   else
                     .ok (.Index s1.array_index val.type) false
                       ⟨s1.instructions, s1.array_index, (x, val) :: s1.vars⟩
               | none => .panics)
          | r => r)
       | _ => .panics) := rfl

theorem match_node_print (e : INode) (s : CG) :
    match_node (.Print e) s =
      (match match_node e s with
       | .ok v _ s1 =>
           .ok (.Index s1.array_index .None) false
             ⟨s1.instructions ++ [(.Print v, none)], s1.array_index, s1.vars⟩
       | r => r) := rfl

theorem match_node_ascii (e : INode) (s : CG) :
    match_node (.Ascii e) s =
      (match match_node e s with
       | .ok v _ s1 =>
           .ok (.Index s1.array_index .None) false
             ⟨s1.instructions ++ [(.Ascii v, none)], s1.array_index, s1.vars⟩
       | r => r) := rfl

theorem match_node_if_none (cond1 then1 : INode) (s : CG) :
    match_node (.If cond1 then1 none) s =
      (match match_node cond1 s with
       | .ok cond _ s1 =>
           if cond.type != .Boolean then .err ⟨.TypeError, cond1.position⟩
           else
             (match match_node then1 s1 with
              | .ok then_ _ s2 =>
                  .ok (.Index s2.array_index then_.type) false
                    ⟨s2.instructions ++ [(.If cond then_ none, some s2.array_index)],
                     s2.array_index + 1, s2.vars⟩
              | r => r)
       | r => r) := rfl

theorem match_node_if_some (cond1 then1 en : INode) (s : CG) :
    match_node (.If cond1 then1 (some en)) s =
      (match match_node cond1 s with
       | .ok cond _ s1 =>
           if cond.type != .Boolean then .err ⟨.TypeError, cond1.position⟩
           else
             (match match_node then1 s1 with
              | .ok then_ _ s2 =>
                  (match match_node en s2 with
                   | .ok else_ _ s3 =>
                       if then_.type != else_.type then
                         .err ⟨.TypeError, en.position⟩
                       else
                         .ok (.Index s3.array_index then_.type) false
                           ⟨s3.instructions ++
                              [(.If cond then_ (some else_), some s3.array_index)],
                            s3.array_index + 1, s3.vars⟩
                   | r => r)
              | r => r)
       | r => r) := rfl

theorem match_node_stmts (ns : List INode) (s : CG) :
    match_node (.Statements ns) s = match_node_list ns s := rfl

theorem match_node_list_nil (s : CG) : match_node_list [] s = .ok .None false s := rfl

theorem match_node_list_cons (n : INode) (rest : List INode) (s : CG) :
    match_node_list (n :: rest) s =
      (match match_node n s with
       | .ok v ret s1 => if ret then .ok v false s1 else match_node_list rest s1
       | r => r) := rfl

theorem slotSeq_length : ∀ (n a : Nat), (slotSeq a n).length = n := by
  intro n
  induction n with
  | zero => intro a; rfl
  | succ n ih => intro a; simp [slotSeq, ih]

theorem valSlot_bound {v : Val} {b : Nat} (hb : ∀ k t, v = .Index k t → k < b) :
    ∀ j, valSlot v = some j → j < b := by
  intro j hj
  cases v <;> simp [valSlot] at hj
  case Index k t => exact hj ▸ hb k t rfl

theorem match_node_pure {e : INode} (hp : Pure e) : ∀ s : CG,
    ∃ em v,
      match_node e s
        = .ok v false ⟨s.instructions ++ em, s.array_index + opCount e, s.vars⟩
      ∧ em.map (fun p => p.2) = (slotSeq s.array_index (opCount e)).map some
      ∧ em.map (fun p => instrTok p.1) = (postOps e).map some
      ∧ emOk s.array_index em = true
      ∧ em.all (fun p => !isPrintOrAscii p.1) = true
      ∧ v.type = .Number
      ∧ ∀ k t, v = .Index k t → k < s.array_index + opCount e := by
  induction hp with
  | num n pos =>
      intro s
      refine ⟨[], .Num n, ?_, ?_, ?_, rfl, rfl, rfl, ?_⟩
      · simp [match_node_num, opCount, postOps]
      · simp [opCount, postOps, slotSeq]
      · simp [postOps]
      · intro k t hkt; cases hkt
  | bin op l r hop hl hr ihl ihr =>
      intro s
      obtain ⟨eml, vl, hml, hdl, htl, hol, hpl, hvtl, hvl⟩ := ihl s
      obtain ⟨emr, vr, hmr, hdr, htr, hor, hpr, hvtr, hvr⟩ :=
        ihr ⟨s.instructions ++ eml, s.array_index + opCount l, s.vars⟩
      obtain ⟨f, hf, hfs⟩ := from_token_binary_spec hop
      simp only [] at hmr hdr hor hvr
      refine ⟨eml ++ emr ++ [(f vl vr, some (s.array_index + opCount l + opCount r))],
              .Index (s.array_index + opCount l + opCount r) .Number,
              ?_, ?_, ?_, ?_, ?_, rfl, ?_⟩
      · rw [match_node_bin, hml]
        simp only [hmr, hvtl, hvtr, bne_self_eq_false, Bool.false_eq_true, if_false, hf,
          opCount_bin]
        simp [List.append_assoc, Nat.add_assoc]
      · have h3 : opCount l + opCount r + 1 = opCount l + (opCount r + 1) := by omega
        rw [opCount_bin, h3, ← slotSeq_append, ← slotSeq_append, slotSeq_one]
        simp only [List.map_append, hdl, hdr, List.map_cons, List.map_nil]
        simp [Nat.add_assoc]
      · simp only [postOps, List.map_append, htl, htr, List.map_cons, List.map_nil,
          (hfs vl vr).2.1]
      · have hlen : (eml.filterMap (fun p => p.2)).length = opCount l := by
          rw [filterMap_eq_of_map_eq_map_some hdl, slotSeq_length]
        have hlenr : (emr.filterMap (fun p => p.2)).length = opCount r := by
          rw [filterMap_eq_of_map_eq_map_some hdr, slotSeq_length]
        rw [List.append_assoc]
        apply emOk_append hol
        rw [hlen]
        apply emOk_append hor
        rw [hlenr]
        have hsb : slotsBelow (s.array_index + opCount l + opCount r) (f vl vr) = true := by
          simp only [slotsBelow, instrSlots, (hfs vl vr).1, List.all_eq_true]
          intro j hj
          simp only [List.mem_filterMap, List.mem_cons, List.mem_singleton,
            List.not_mem_nil, or_false] at hj
          obtain ⟨v0, hv0, hslot⟩ := hj
          rcases hv0 with h | h
          · subst h
            have := valSlot_bound hvl j hslot
            simp only [decide_eq_true_eq]
            omega
          · subst h
            have := valSlot_bound hvr j hslot
            simp only [decide_eq_true_eq]
            omega
        simp [emOk, hsb]
      · simp only [List.all_append, hpl, hpr, Bool.and_true, Bool.true_and,
          List.all_cons, List.all_nil, (hfs vl vr).2.2, Bool.not_false]
      · intro k t hkt
        injection hkt with h1 h2
        rw [opCount_bin]
        omega
  | un op e2 hop he ih =>
      intro s
      obtain ⟨em1, v1, hm1, hd1, ht1, ho1, hp1, hvt1, hv1⟩ := ih s
      obtain ⟨f, hf, hfs⟩ := from_token_unary_spec hop
      refine ⟨em1 ++ [(f v1, some (s.array_index + opCount e2))],
              .Index (s.array_index + opCount e2) .Number,
              ?_, ?_, ?_, ?_, ?_, rfl, ?_⟩
      · rw [match_node_un, hm1]
        simp only [hf, hvt1, opCount_un]
        simp [List.append_assoc, Nat.add_assoc]
      · rw [opCount_un, ← slotSeq_append, slotSeq_one]
        simp only [List.map_append, hd1, List.map_cons, List.map_nil]
      · simp only [postOps, List.map_append, ht1, List.map_cons, List.map_nil,
          (hfs v1).2.1]
      · have hlen : (em1.filterMap (fun p => p.2)).length = opCount e2 := by
          rw [filterMap_eq_of_map_eq_map_some hd1, slotSeq_length]
        apply emOk_append ho1
        rw [hlen]
        have hsb : slotsBelow (s.array_index + opCount e2) (f v1) = true := by
          simp only [slotsBelow, instrSlots, (hfs v1).1, List.all_eq_true]
          intro j hj
          simp only [List.mem_filterMap, List.mem_singleton] at hj
          obtain ⟨v0, hv0, hslot⟩ := hj
          subst hv0
          have := valSlot_bound hv1 j hslot
          simp only [decide_eq_true_eq]
          omega
        simp [emOk, hsb]
      · simp only [List.all_append, hp1, Bool.true_and, List.all_cons, List.all_nil,
          (hfs v1).2.2, Bool.not_false, Bool.and_true]
      · intro k t hkt
        injection hkt with h1 h2
        rw [opCount_un]
        omega


theorem match_node_list_pure {ns : List INode} (h : ∀ n ∈ ns, PureStmt n) :
    ∀ s : CG, ∃ em d,
      match_node_list ns s
        = .ok .None false ⟨s.instructions ++ em, s.array_index + d, s.vars⟩
      ∧ emOk s.array_index em = true
      ∧ printOk em = true := by
  induction ns with
  | nil =>
      intro s
      exact ⟨[], 0, by simp [match_node_list_nil], rfl, rfl⟩
  | cons n rest ih =>
      intro s
      have hrest : ∀ m ∈ rest, PureStmt m := fun m hm => h m (by simp [hm])
      have hn : PureStmt n := h n (by simp)
      cases hn with
      | expr _ he =>
          obtain ⟨em1, v, hm, hd, ht, ho, hpr, hvt, hv⟩ := match_node_pure he s
          obtain ⟨em2, d2, hm2, ho2, hp2⟩ :=
            ih hrest ⟨s.instructions ++ em1, s.array_index + opCount n, s.vars⟩
          simp only [] at hm2 ho2
          refine ⟨em1 ++ em2, opCount n + d2, ?_, ?_, ?_⟩
          · rw [match_node_list_cons, hm]
            simp only [if_false, Bool.false_eq_true, hm2]
            simp [List.append_assoc, Nat.add_assoc]
          · apply emOk_append ho
            rw [filterMap_eq_of_map_eq_map_some hd, slotSeq_length]
            exact ho2
          · exact printOk_append (printOk_of_noPrint hpr) hp2
      | print e he =>
          obtain ⟨em1, v, hm, hd, ht, ho, hpr, hvt, hv⟩ := match_node_pure he s
          obtain ⟨em2, d2, hm2, ho2, hp2⟩ :=
            ih hrest ⟨s.instructions ++ em1 ++ [(.Print v, none)],
                      s.array_index + opCount e, s.vars⟩
          simp only [] at hm2 ho2
          refine ⟨em1 ++ [(.Print v, none)] ++ em2, opCount e + d2, ?_, ?_, ?_⟩
          · rw [match_node_list_cons, match_node_print, hm]
            simp only [if_false, Bool.false_eq_true, hm2]
            simp [List.append_assoc, Nat.add_assoc]
          · rw [List.append_assoc]
            apply emOk_append ho
            rw [filterMap_eq_of_map_eq_map_some hd, slotSeq_length]
            have hsb : slotsBelow (s.array_index + opCount e) (.Print v) = true := by
              simp only [slotsBelow, instrSlots, instrVals, List.all_eq_true]
              intro j hj
              simp only [List.mem_filterMap, List.mem_cons, List.not_mem_nil,
                or_false] at hj
              obtain ⟨v0, hv0, hslot⟩ := hj
              subst hv0
              have := valSlot_bound hv j hslot
              simp only [decide_eq_true_eq]
              omega
            simp only [List.cons_append, List.nil_append, emOk, hsb, Bool.true_and]
            simpa [List.filterMap_cons] using ho2
          · apply printOk_append (printOk_append (printOk_of_noPrint hpr) (by rfl)) hp2
      | ascii e he =>
          obtain ⟨em1, v, hm, hd, ht, ho, hpr, hvt, hv⟩ := match_node_pure he s
          obtain ⟨em2, d2, hm2, ho2, hp2⟩ :=
            ih hrest ⟨s.instructions ++ em1 ++ [(.Ascii v, none)],
                      s.array_index + opCount e, s.vars⟩
          simp only [] at hm2 ho2
          refine ⟨em1 ++ [(.Ascii v, none)] ++ em2, opCount e + d2, ?_, ?_, ?_⟩
          · rw [match_node_list_cons, match_node_ascii, hm]
            simp only [if_false, Bool.false_eq_true, hm2]
            simp [List.append_assoc, Nat.add_assoc]
          · rw [List.append_assoc]
            apply emOk_append ho
            rw [filterMap_eq_of_map_eq_map_some hd, slotSeq_length]
            have hsb : slotsBelow (s.array_index + opCount e) (.Ascii v) = true := by
              simp only [slotsBelow, instrSlots, instrVals, List.all_eq_true]
              intro j hj
              simp only [List.mem_filterMap, List.mem_cons, List.not_mem_nil,
                or_false] at hj
              obtain ⟨v0, hv0, hslot⟩ := hj
              subst hv0
              have := valSlot_bound hv j hslot
              simp only [decide_eq_true_eq]
              omega
            simp only [List.cons_append, List.nil_append, emOk, hsb, Bool.true_and]
            simpa [List.filterMap_cons] using ho2
          · apply printOk_append (printOk_append (printOk_of_noPrint hpr) (by rfl)) hp2

/-! ## Claim theorems -/

/-- C1 (counterexample): parsing `- 1 ** 2` yields a unary node whose
operand is the power node, not — as the claim states — a power node
whose left operand is the unary node. -/
theorem C1_counterexample :
    parseShape c1toks 64
      = some (.stmts [.unary .Sub (.binop .Pow (.lit (.Number 1)) (.lit (.Number 2)))])
    ∧ topIsPowOverUnary (parse c1toks 64) = false := ⟨rfl, rfl⟩

/-- C1 (amended): the implemented ladder places unary prefix between
multiplicative and power, so the unary prefix operator binds looser than
`**`: for all number payloads `a`, `b`, parsing `- a ** b` yields a
unary node whose operand is the power node. -/
theorem C1_amended_thm : ∀ (a b : Nat),
    parseShape [tokAt .Sub 0, tokAt (.Number a) 1, tokAt .Pow 2,
                tokAt (.Number b) 3, tokAt .Eof 4] 64
      = some (.stmts [.unary .Sub (.binop .Pow (.lit (.Number a)) (.lit (.Number b)))]) :=
  fun _ _ => rfl

/-- C2 (counterexample): `let x: eznumber = 3; x += 2` parses to the
desugared AST, and lowering it emits the Add into slot 0 and the Copy
into slot 1, but the variable table maps `x` to slot 0 (the Copy's
source), not — as the claim states — to the Copy's destination slot. -/
theorem C2_counterexample :
    parseShape c2toks 64
      = some (.stmts
          [.assign (.Identifier "x") (.lit (.Number 3)) (some .Number),
           .reassign (.Identifier "x")
             (.binop .Add (.access (.Identifier "x")) (.lit (.Number 2)))])
    ∧ match_node c2prog ⟨[], 0, []⟩
      = .ok .None false
          ⟨[(.Add (.Num 3) (.Num 2), some 0), (.Copy (.Index 0 .Number), some 1)], 2,
           [("x", .Index 0 .Number), ("x", .Num 3)]⟩
    ∧ CG.getVar ⟨[(.Add (.Num 3) (.Num 2), some 0), (.Copy (.Index 0 .Number), some 1)],
                 2, [("x", .Index 0 .Number), ("x", .Num 3)]⟩ "x"
        = some (.Index 0 .Number)
    ∧ CG.getVar ⟨[(.Add (.Num 3) (.Num 2), some 0), (.Copy (.Index 0 .Number), some 1)],
                 2, [("x", .Index 0 .Number), ("x", .Num 3)]⟩ "x"
        ≠ some (.Index 1 .Number) := ⟨rfl, rfl, rfl, by decide⟩

/-- C2 (amended): lowering `let x: eznumber = 3; x += 2` binds `x` to the
immediate literal 3 with no instruction, then emits one Add into fresh
slot 0 and one Copy into fresh slot 1; the variable table finally maps
`x` to the Add-result slot 0 (the Copy's source) with type Number. -/
theorem C2_amended_thm :
    parseShape c2toks 64
      = some (.stmts
          [.assign (.Identifier "x") (.lit (.Number 3)) (some .Number),
           .reassign (.Identifier "x")
             (.binop .Add (.access (.Identifier "x")) (.lit (.Number 2)))])
    ∧ match_node c2prog1 ⟨[], 0, []⟩ = .ok .None false ⟨[], 0, [("x", .Num 3)]⟩
    ∧ match_node c2prog ⟨[], 0, []⟩
      = .ok .None false
          ⟨[(.Add (.Num 3) (.Num 2), some 0), (.Copy (.Index 0 .Number), some 1)], 2,
           [("x", .Index 0 .Number), ("x", .Num 3)]⟩
    ∧ CG.getVar ⟨[(.Add (.Num 3) (.Num 2), some 0), (.Copy (.Index 0 .Number), some 1)],
                 2, [("x", .Index 0 .Number), ("x", .Num 3)]⟩ "x"
        = some (.Index 0 .Number) := ⟨rfl, rfl, rfl, rfl⟩

/-- C3 (counterexample): parsing `1 / 0` halts with DivisionByZero, but
the error's span is that of the end-of-file token (the current token
after the right operand), not — as the claim states — the division
token's span. -/
theorem C3_counterexample :
    parse c3toks 64 = .err ⟨.DivisionByZero, ⟨3, 4, 0, 0⟩⟩
    ∧ (⟨3, 4, 0, 0⟩ : Position) ≠ ⟨1, 2, 0, 0⟩ := ⟨rfl, by decide⟩

/-- C3 (amended): reaching a division whose right operand is the literal
0 halts parsing with DivisionByZero and no AST; the error's span is that
of the token at the cursor after the right operand (here the end-of-file
token, span `p3`), for every choice of spans and left payload. -/
theorem C3_amended_thm : ∀ (a : Nat) (p0 p1 p2 p3 : Position),
    parse [⟨.Number a, p0⟩, ⟨.Div, p1⟩, ⟨.Number 0, p2⟩, ⟨.Eof, p3⟩] 64
      = .err ⟨.DivisionByZero, p3⟩ :=
  fun _ _ _ _ _ => rfl

/-- C4 (counterexample): lowering `if true (ezout 1)` succeeds, but its
instruction list violates the backend contract: the Print result flows
into the If as the then-branch value, and the If instruction (destination
slot 0) references slot 0, which no earlier instruction defines. -/
theorem C4_counterexample :
    match_node c4prog ⟨[], 0, []⟩ = .ok (.Index 0 .None) false ⟨c4instrs, 1, []⟩
    ∧ backendContract c4instrs = false := ⟨rfl, rfl⟩

/-- C4 (amended): for every program of statements whose Print/Ascii
values never flow into another instruction (arithmetic expressions and
Print/Ascii of them), lowering succeeds and satisfies the backend
contract: dense, strictly increasing destination slots, operands only
immediates or already-defined slots, and no destination on Print/Ascii. -/
theorem C4_amended_thm (ns : List INode) (h : ∀ n ∈ ns, PureStmt n) :
    ∃ v r s, match_node (.Statements ns) ⟨[], 0, []⟩ = .ok v r s
      ∧ backendContract s.instructions = true := by
  obtain ⟨em, d, hm, ho, hp⟩ := match_node_list_pure h ⟨[], 0, []⟩
  simp only [] at hm ho
  refine ⟨.None, false, _, by rw [match_node_stmts]; exact hm, ?_⟩
  simp only [backendContract, List.nil_append, Bool.and_eq_true]
  exact ⟨ho, hp⟩

/-- C4 (witness): the contract holds for `ezout 7` followed by `1 + 2`. -/
theorem C4_witness :
    ∃ v r s,
      match_node (.Statements [.Print (.Number (tokAt (.Number 7) 0)),
          .BinaryOp (tokAt .Add 2) (.Number (tokAt (.Number 1) 1))
            (.Number (tokAt (.Number 2) 3))]) ⟨[], 0, []⟩ = .ok v r s
      ∧ backendContract s.instructions = true := by
  apply C4_amended_thm
  intro n hn
  simp only [List.mem_cons, List.not_mem_nil, or_false] at hn
  rcases hn with h | h <;> subst h
  · exact PureStmt.print _ (Pure.num 7 ⟨0, 1, 0, 0⟩)
  · exact PureStmt.expr _ (Pure.bin (tokAt .Add 2) _ _ rfl
      (Pure.num 1 ⟨1, 2, 0, 0⟩) (Pure.num 2 ⟨3, 4, 0, 0⟩))

/-- C5: a literal-zero right-hand side of `/=` or `%=` is rejected with
DivisionByZero by `let_statement` (first conjunct), a literal-zero right
operand of `/` or `%` is rejected with DivisionByZero by the `binary_op`
loop (second conjunct); with any other right operand — a non-zero
literal, a variable access, or a computed expression — the loop simply
continues, so no static rejection occurs at the only checking sites
(third conjunct); end to end, `1 / 2`, `let x = 1; 2 / x`,
`1 / (0 - 0)` and `let x = 1; x /= 2` parse successfully while `x /= 0`
is rejected with DivisionByZero. -/
theorem C5_thm :
    (∀ (fuel : Nat) (st : PState) (sc : Scope) (s0 : String) (ztok : Token)
       (st3 : PState) (sc3 : Scope),
        st.current_token.tokenType = .Identifier s0 →
        (st.advance.current_token.tokenType = .DivAssign
          ∨ st.advance.current_token.tokenType = .ModAssign) →
        run fuel .expression st.advance.advance sc = .ok (.node (.Number ztok)) st3 sc3 →
        ztok.tokenType = .Number 0 →
        run (fuel + 1) (.letStatement false) st sc
          = .err ⟨.DivisionByZero, st3.current_token.position⟩)
    ∧ (∀ (fuel : Nat) (ops : List TokenType) (f2 : SubP) (left : Node)
         (st : PState) (sc : Scope) (ztok : Token) (st2 : PState) (sc2 : Scope),
        ops.contains st.current_token.tokenType = true →
        (st.current_token.tokenType = .Div ∨ st.current_token.tokenType = .Mod) →
        run fuel (subReq f2) st.advance sc = .ok (.node (.Number ztok)) st2 sc2 →
        ztok.tokenType = .Number 0 →
        run (fuel + 1) (.binOpLoop ops f2 left) st sc
          = .err ⟨.DivisionByZero, st2.current_token.position⟩)
    ∧ (∀ (fuel : Nat) (ops : List TokenType) (f2 : SubP) (left : Node)
         (st : PState) (sc : Scope) (right : Node) (st2 : PState) (sc2 : Scope),
        ops.contains st.current_token.tokenType = true →
        run fuel (subReq f2) st.advance sc = .ok (.node right) st2 sc2 →
        isLitZero right = false →
        run (fuel + 1) (.binOpLoop ops f2 left) st sc
          = run fuel (.binOpLoop ops f2 (.BinaryOp st.current_token left right)) st2 sc2)
    ∧ (parse c5aToks 64).isOk = true
    ∧ (parse c5bToks 64).isOk = true
    ∧ (parse c5cToks 64).isOk = true
    ∧ (parse c5eToks 64).isOk = true
    ∧ parse c5dToks 64 = .err ⟨.DivisionByZero, ⟨3, 4, 0, 0⟩⟩ := by
  refine ⟨?_, ?_, ?_, rfl, rfl, rfl, rfl, rfl⟩
  · intro fuel st sc s0 ztok st3 sc3 h1 h2 h3 h4
    obtain ⟨ztt, zpos⟩ := ztok
    simp only [] at h4
    subst h4
    simp only [run, h1]
    rcases h2 with h2 | h2 <;>
      simp only [h2, PRes.bindN, h3, beq_self_eq_true, Bool.and_self, if_true,
        ASSIGNMENT_OPERATORS, List.contains_cons, beq_iff_eq, reduceCtorEq,
        List.contains_nil, Bool.or_false, Bool.or_true, Bool.true_or,
        Bool.and_true, Bool.not_false, isLitZero, if_false, Bool.false_or,
        List.mem_cons, List.mem_singleton, or_false,
        false_or, Bool.true_and, ite_true, ite_false]
  · intro fuel ops f2 left st sc ztok st2 sc2 h1 h2 h3 h4
    obtain ⟨ztt, zpos⟩ := ztok
    simp only [] at h4
    subst h4
    simp only [run, h1, if_true, PRes.bindN, h3]
    rcases h2 with h2 | h2 <;>
      simp [h2, isLitZero]
  · intro fuel ops f2 left st sc right st2 sc2 h1 h2 h3
    simp only [run, h1, if_true, PRes.bindN, h2, h3]
    by_cases hdm : [TokenType.Div, TokenType.Mod].contains st.current_token.tokenType
    · simp [hdm, h3]
    · simp [hdm, h3]

/-- C5 (witness): `x /= 0` is rejected with DivisionByZero through the
compound-assignment path of `let_statement`. -/
theorem C5_witness :
    run 65 (.letStatement false) ⟨c5dToks, 0, tokAt (.Identifier "x") 0⟩ (Scope.new none)
      = .err ⟨.DivisionByZero, ⟨3, 4, 0, 0⟩⟩ :=
  C5_thm.1 64 ⟨c5dToks, 0, tokAt (.Identifier "x") 0⟩ (Scope.new none) "x"
    (tokAt (.Number 0) 2) ⟨c5dToks, 3, tokAt .Eof 3⟩ (Scope.new none)
    rfl (Or.inl rfl) rfl rfl

/-- C6: if the condition of an `if` lowers to a non-Boolean value, the
result is a TypeError at the condition's span, whatever the branches are
(so the condition check precedes the branch-type check); if the
condition is Boolean and both branches lower to values of different
types, the result is a TypeError at the else branch's span. -/
theorem C6_thm :
    (∀ (c t : INode) (e : Option INode) (s : CG) (cv : Val) (rc : Bool) (s1 : CG),
        match_node c s = .ok cv rc s1 →
        cv.type ≠ .Boolean →
        match_node (.If c t e) s = .err ⟨.TypeError, c.position⟩)
    ∧ (∀ (c t en : INode) (s : CG) (cv : Val) (rc : Bool) (s1 : CG)
         (tv : Val) (rt : Bool) (s2 : CG) (ev : Val) (re : Bool) (s3 : CG),
        match_node c s = .ok cv rc s1 →
        cv.type = .Boolean →
        match_node t s1 = .ok tv rt s2 →
        match_node en s2 = .ok ev re s3 →
        tv.type ≠ ev.type →
        match_node (.If c t (some en)) s = .err ⟨.TypeError, en.position⟩) := by
  constructor
  · intro c t e s cv rc s1 h1 h2
    have hb : (cv.type != ValType.Boolean) = true := by
      simp [bne_iff_ne, h2]
    cases e with
    | none => rw [match_node_if_none, h1]; simp [hb]
    | some en => rw [match_node_if_some, h1]; simp [hb]
  · intro c t en s cv rc s1 tv rt s2 ev re s3 h1 h2 h3 h4 h5
    have hb : (tv.type != ev.type) = true := by
      simp [bne_iff_ne, h5]
    rw [match_node_if_some, h1]
    simp only [h2, bne_self_eq_false, Bool.false_eq_true, if_false, h3, h4, hb, if_true]

/-- C6 (witness): lowering `if 1 { 2 } else { true }` yields the
condition TypeError (at the condition's span), although the branch types
also mismatch. -/
theorem C6_witness :
    match_node c6prog ⟨[], 0, []⟩ = .err ⟨.TypeError, ⟨0, 1, 0, 0⟩⟩ :=
  C6_thm.1 (.Number (tokAt (.Number 1) 0)) (.Number (tokAt (.Number 2) 1))
    (some (.Number (tokAt (.Keyword "true") 2))) ⟨[], 0, []⟩ (.Num 1) false ⟨[], 0, []⟩
    rfl (by decide)

/-- C7 (counterexample): after `let x = 1` the table records type Number
for `x`, yet `let x = 1; let x = true; x = true` lowers without any
TypeError although the reassigned value's type (Boolean) differs from
the first-bound type (Number): a repeated `let` rebinds the type. -/
theorem C7_counterexample :
    match_node c7prog1 ⟨[], 0, []⟩ = .ok .None false ⟨[], 0, [("x", .Num 1)]⟩
    ∧ CG.getVar ⟨[], 0, [("x", .Num 1)]⟩ "x" = some (.Num 1)
    ∧ (Val.Num 1).type = .Number
    ∧ match_node c7prog ⟨[], 0, []⟩
      = .ok .None false
          ⟨[], 0, [("x", .Bool true), ("x", .Bool true), ("x", .Num 1)]⟩
    ∧ CG.getVar ⟨[], 0, [("x", .Bool true), ("x", .Bool true), ("x", .Num 1)]⟩ "x"
        = some (.Bool true)
    ∧ (Val.Bool true).type ≠ ValType.Number := ⟨rfl, rfl, rfl, rfl, rfl, by decide⟩

/-- C7 (amended): reassigning a variable with a value whose type differs
from its currently recorded type always yields TypeError, and a
successful reassignment never changes the recorded type; only a repeated
`let` declaration can rebind it. -/
theorem C7_amended_thm :
    (∀ (x : Token) (xs : String) (e : INode) (s : CG) (v : Val) (r : Bool)
       (s1 : CG) (old : Val),
        x.tokenType = .Identifier xs →
        match_node e s = .ok v r s1 →
        CG.getVar s1 xs = some old →
        v.type ≠ old.type →
        match_node (.VarReassign x e) s = .err ⟨.TypeError, x.position⟩)
    ∧ (∀ (x : Token) (xs : String) (e : INode) (s : CG) (v : Val) (r : Bool)
       (s1 : CG) (old : Val),
        x.tokenType = .Identifier xs →
        match_node e s = .ok v r s1 →
        CG.getVar s1 xs = some old →
        v.type = old.type →
        ∃ v2 s2, match_node (.VarReassign x e) s = .ok v2 false s2
          ∧ (CG.getVar s2 xs).map Val.type = some old.type) := by
  constructor
  · intro x xs e s v r s1 old h1 h2 h3 h4
    rw [match_node_reassign, h1]
    cases v with
    | Index idx t =>
        rw [h2]
        simp only [h3]
        have hb : (old.type != t) = true := by
          simp only [bne_iff_ne, ne_eq]
          intro hh
          exact h4 (by rw [hh]; exact rfl)
        simp [hb]
    | Num n =>
        rw [h2]
        simp only [h3]
        have hb : (old.type != (Val.Num n).type) = true := by
          simp only [bne_iff_ne, ne_eq]
          intro hh
          exact h4 hh.symm
        simp [hb]
    | Bool b =>
        rw [h2]
        simp only [h3]
        have hb : (old.type != (Val.Bool b).type) = true := by
          simp only [bne_iff_ne, ne_eq]
          intro hh
          exact h4 hh.symm
        simp [hb]
    | None =>
        rw [h2]
        simp only [h3]
        have hb : (old.type != Val.None.type) = true := by
          simp only [bne_iff_ne, ne_eq]
          intro hh
          exact h4 hh.symm
        simp [hb]
  · intro x xs e s v r s1 old h1 h2 h3 h4
    rw [match_node_reassign, h1]
    cases v with
    | Index idx t =>
        rw [h2]
        simp only [h3]
        have ht : t = old.type := h4
        rw [← ht]
        simp only [bne_self_eq_false, Bool.false_eq_true, if_false]
        refine ⟨_, _, rfl, ?_⟩
        simp [CG.getVar, Val.type]
    | Num n =>
        rw [h2]
        simp only [h3]
        rw [show old.type = (Val.Num n).type from h4.symm]
        simp only [bne_self_eq_false, Bool.false_eq_true, if_false]
        refine ⟨_, _, rfl, ?_⟩
        simp [CG.getVar, Val.type]
    | Bool b =>
        rw [h2]
        simp only [h3]
        rw [show old.type = (Val.Bool b).type from h4.symm]
        simp only [bne_self_eq_false, Bool.false_eq_true, if_false]
        refine ⟨_, _, rfl, ?_⟩
        simp [CG.getVar, Val.type]
    | None =>
        rw [h2]
        simp only [h3]
        rw [show old.type = Val.None.type from h4.symm]
        simp only [bne_self_eq_false, Bool.false_eq_true, if_false]
        refine ⟨_, _, rfl, ?_⟩
        simp [CG.getVar, Val.type]

/-- C7 (witness): with `x` recorded at type Number, the reassignment
`x = true` yields TypeError at the variable token's span. -/
theorem C7_witness :
    match_node (.VarReassign (tokAt (.Identifier "x") 4)
        (.Number (tokAt (.Keyword "true") 5))) ⟨[], 0, [("x", .Num 3)]⟩
      = .err ⟨.TypeError, ⟨4, 5, 0, 0⟩⟩ :=
  C7_amended_thm.1 (tokAt (.Identifier "x") 4) "x" (.Number (tokAt (.Keyword "true") 5))
    ⟨[], 0, [("x", .Num 3)]⟩ (.Bool true) false ⟨[], 0, [("x", .Num 3)]⟩ (.Num 3)
    rfl rfl rfl (by decide)

/-- C8 (counterexample): in the global scope, `foo() ez foo() 1` — a call
to a function registered later in the same block — is rejected with
UndefinedFunction at the call's span, because `check_undefined` never
refreshes the global scope's own queue; the claim says such a call never
produces an error. -/
theorem C8_counterexample :
    parse c8fwdToks 64 = .err ⟨.UndefinedFunction, ⟨0, 1, 0, 0⟩⟩ := rfl

/-- C8 (amended): inside a non-global block the same forward call parses
without error; a call to a name never registered anywhere is always
UndefinedFunction; and with two never-registered calls `foo()`, `bar()`
in one scope, the error names the most recently queued call (`bar`, span
`⟨3,4⟩`), not the first. -/
theorem C8_amended_thm :
    (parse c8nestedToks 64).isOk = true
    ∧ parse c8undefToks 64 = .err ⟨.UndefinedFunction, ⟨0, 1, 0, 0⟩⟩
    ∧ parse c8twoToks 64 = .err ⟨.UndefinedFunction, ⟨3, 4, 0, 0⟩⟩
    ∧ (⟨3, 4, 0, 0⟩ : Position) ≠ ⟨0, 1, 0, 0⟩ := ⟨rfl, rfl, rfl, by decide⟩

/-- C9: lowering a well-typed Number-only arithmetic expression emits
exactly one instruction per operator node, in post-order (the emitted
operator sequence equals the post-order operator list), with destination
slots exactly the consecutive fresh indices — strictly increasing and
never reused. -/
theorem C9_thm {e : INode} (hp : Pure e) (s : CG) :
    ∃ em v,
      match_node e s
        = .ok v false ⟨s.instructions ++ em, s.array_index + opCount e, s.vars⟩
      ∧ em.length = opCount e
      ∧ em.map (fun p => instrTok p.1) = (postOps e).map some
      ∧ em.map (fun p => p.2) = (slotSeq s.array_index (opCount e)).map some
      ∧ (em.filterMap fun p => p.2).Pairwise (· < ·) := by
  obtain ⟨em, v, h1, hd, ht, _, _, _, _⟩ := match_node_pure hp s
  refine ⟨em, v, h1, ?_, ht, hd, ?_⟩
  · have := congrArg List.length hd
    simpa [slotSeq_length] using this
  · rw [filterMap_eq_of_map_eq_map_some hd]
    exact slotSeq_pairwise _ _

/-- C9 (witness): lowering `1 + 2` from the empty state emits one Add at
slot 0. -/
theorem C9_witness :
    ∃ em v,
      match_node (.BinaryOp (tokAt .Add 1) (.Number (tokAt (.Number 1) 0))
          (.Number (tokAt (.Number 2) 2))) ⟨[], 0, []⟩ = .ok v false ⟨em, 1, []⟩
      ∧ em.length = 1
      ∧ em.map (fun p => instrTok p.1) = [some .Add]
      ∧ em.map (fun p => p.2) = [some 0]
      ∧ (em.filterMap fun p => p.2).Pairwise (· < ·) :=
  C9_thm (Pure.bin (tokAt .Add 1) _ _ rfl (Pure.num 1 ⟨0, 1, 0, 0⟩)
    (Pure.num 2 ⟨2, 3, 0, 0⟩)) ⟨[], 0, []⟩

/-- C10: `parse` reads `tokens[0]` before any other work; on the empty
token vector this is an out-of-bounds panic, not a returned error, and
for every non-empty token sequence the access succeeds. -/
theorem C10_thm :
    (∀ fuel, parse [] fuel = .panics)
    ∧ ∀ (t : Token) (ts : List Token), (firstToken (t :: ts)).isSome = true :=
  ⟨fun _ => rfl, fun _ _ => rfl⟩

end Ez
